import Mathlib

set_option autoImplicit false
set_option maxRecDepth 8000
set_option maxHeartbeats 1000000

namespace Referencing

/-!
Shallow embedding of the JSON Schema resource registry of the repository
(crates/jsonschema-referencing/src/registry.rs).  Parts of the crate that the
registry relies on but whose sources are not in scope (the uri module, the
resource and draft introspection module, the resolution cache, the static
meta-schema table contents) are modelled from the specification; each such
definition carries a doc comment saying so.  Hash maps and hash sets are
modelled as association lists / lists with first-match lookup, where an insert
prepends (so lookups observe the usual overwrite semantics of HashMap::insert);
the hashed (base, reference) fingerprints of the seen set are modelled as the
hashed pairs themselves.
-/

/-- JSON values in the sense of serde_json, as consumed by the registry. -/
inductive Json where
  | null
  | bool (b : Bool)
  | num (n : Int)
  | str (s : String)
  | arr (elems : List Json)
  | obj (members : List (String × Json))

/-- Lookup of an object member by key (serde_json map lookup; keys are unique
in parsed JSON, first match in the member list). -/
def objGet (v : Json) (key : String) : Option Json :=
  match v with
  | .obj members => (members.find? (fun p => p.1 == key)).map (fun p => p.2)
  | _ => none

/-- Closed error taxonomy of the crate. -/
inductive Error where
  | invalidUri (input : String)
  | unretrievable (uri : String) (cause : String)
  | unknownSpecification (specification : String)
  | unresolvable (uri : String)
  | pointerMiss (uri : String) (fragment : String)
  | invalidAnchor (name : String)
  | noSuchAnchor (name : String)
  | invalidSchema (detail : String)
deriving DecidableEq

/-- Association-list lookup, first match wins (models HashMap::get). -/
def alookup {α β : Type} [DecidableEq α] (m : List (α × β)) (k : α) : Option β :=
  (m.find? (fun p => decide (p.1 = k))).map (fun p => p.2)

/-- Association-list insert by prepending (models HashMap::insert: a later
insert under the same key shadows the earlier binding for lookups). -/
def ainsert {α β : Type} (k : α) (v : β) (m : List (α × β)) : List (α × β) :=
  (k, v) :: m

/-- Character-level prefix test (str::starts_with), written over the char list
so that it evaluates inside the kernel. -/
def strStartsWith (s p : String) : Bool :=
  p.toList.isPrefixOf s.toList

/-- Character-level membership test (str::contains with a char pattern). -/
def strContains (s : String) (c : Char) : Bool :=
  s.toList.contains c

/-- Character-level split on a separator character (str::split), keeping empty
segments, as String::splitOn does for a one-character separator. -/
def splitOnChar (sep : Char) : List Char → List (List Char)
  | [] => [[]]
  | c :: rest =>
    if c == sep then [] :: splitOnChar sep rest
    else
      match splitOnChar sep rest with
      | [] => [[c]]
      | g :: gs => (c :: g) :: gs

/-- Dropping the first character of a string (str slicing past a hash). -/
def strDrop1 (s : String) : String :=
  (s.toList.drop 1).asString

/-- URIs as used by the registry: a scheme, the scheme-specific part, and an
optional fragment.  Modelled from the spec: the uri module is not among the
sources in scope. -/
structure Uri where
  scheme : String
  rest : String
  fragment : Option String
deriving DecidableEq

/-- Characters allowed in a URI scheme after the leading letter. -/
def isSchemeChar (c : Char) : Bool :=
  c.isAlpha || c.isDigit || c == '+' || c == '-' || c == '.'

/-- A scheme is a nonempty run of scheme characters starting with a letter. -/
def validScheme : List Char → Bool
  | [] => false
  | c :: cs => c.isAlpha && (c :: cs).all isSchemeChar

/-- Split a character list at the first occurrence of the separator. -/
def splitAtChar (sep : Char) : List Char → Option (List Char × List Char)
  | [] => none
  | c :: rest =>
    if c == sep then some ([], rest)
    else (splitAtChar sep rest).map (fun p => (c :: p.1, p.2))

/-- Modelled from the spec: RFC 3986 parse rejecting an empty or malformed
scheme (uri::from_str; the uri module is not among the sources in scope).
The fragment is split off at the first hash character. -/
def parseUri (s : String) : Except Error Uri :=
  match splitAtChar ':' s.toList with
  | none => .error (.invalidUri s)
  | some (schemeChars, restChars) =>
    if validScheme schemeChars then
      match splitAtChar '#' restChars with
      | none => .ok ⟨schemeChars.asString, restChars.asString, none⟩
      | some (before, frag) =>
        .ok ⟨schemeChars.asString, before.asString, some frag.asString⟩
    else .error (.invalidUri s)

/-- Rendering of a URI back to a string (Uri::as_str). -/
def Uri.toStr (u : Uri) : String :=
  u.scheme ++ ":" ++ u.rest ++
    (match u.fragment with
     | some f => "#" ++ f
     | none => "")

/-- Clearing the fragment component (set_fragment(None)). -/
def Uri.dropFragment (u : Uri) : Uri :=
  { u with fragment := none }

/-- Stripping all trailing hash characters (str::trim_end_matches with a hash
pattern, applied to input URIs before parsing). -/
def dropTrailingHashes (s : String) : String :=
  ((s.toList.reverse.dropWhile (fun c => c == '#')).reverse).asString

/-- Splitting a reference string at the first hash (str::split_once). -/
def splitRefFragment (s : String) : String × Option String :=
  match splitAtChar '#' s.toList with
  | none => (s, none)
  | some (p, f) => (p.asString, some f.asString)

/-- Authority component of a scheme-specific part, when present. -/
def takeAuthority (rest : List Char) : List Char :=
  match rest with
  | '/' :: '/' :: tail => '/' :: '/' :: tail.takeWhile (fun c => c ≠ '/')
  | _ => []

/-- Everything up to and including the last slash of a path. -/
def dropLastSegment (rest : List Char) : List Char :=
  (rest.reverse.dropWhile (fun c => c ≠ '/')).reverse

/-- Path-merge step of relative-reference resolution. -/
def mergePath (baseRest : String) (path : String) : String :=
  if path = "" then baseRest
  else if strStartsWith path "/" then (takeAuthority baseRest.toList).asString ++ path
  else (dropLastSegment baseRest.toList).asString ++ path

/-- Modelled from the spec: standard relative-reference resolution against an
absolute base (resolution cache resolve_against; the cache memoizes a pure
computation, so it is modelled as the computation itself).  An absolute
reference resolves to itself; a urn base resolves only absolute references;
otherwise the path is merged and the reference fragment kept.  Dot-segment
normalization is omitted; no claim in scope depends on it. -/
def resolveAgainst (base : Uri) (r : String) : Except Error Uri :=
  match parseUri r with
  | .ok u => .ok u
  | .error _ =>
    if base.scheme = "urn" then .error (.invalidUri r)
    else
      let pf := splitRefFragment r
      .ok ⟨base.scheme, mergePath base.rest pf.1, pf.2⟩

/-- Characters a fragment may contain without percent-encoding. -/
def fragmentSafe (c : Char) : Bool :=
  c.isAlphanum || "-._~!$&()*+,;=:@/?".toList.contains c || c.toNat == 39

/-- Percent-encoding of one character, byte by byte. -/
def encodeChar (c : Char) : List Char :=
  (String.utf8EncodeChar c).flatMap
    (fun b => ['%', Nat.digitChar (b.toNat / 16), Nat.digitChar (b.toNat % 16)])

/-- Modelled from the spec: percent-encode all characters outside the
fragment-safe set, returning the input unchanged when it is already clean
(uri::EncodedString / uri::encode_to). -/
def encodeFragment (s : String) : String :=
  if s.toList.all (fun c => fragmentSafe c || c == '%') then s
  else (s.toList.flatMap (fun c => if fragmentSafe c then [c] else encodeChar c)).asString

/-- Specification versions supported by the crate. -/
inductive Draft
  | draft4
  | draft6
  | draft7
  | draft201909
  | draft202012
deriving DecidableEq

/-- Draft::default in the source. -/
def defaultDraft : Draft := .draft202012

/-- Draft-tagged view over an interned JSON node (InnerResourcePtr, with the
pinned pointer replaced by the pointed-to value). -/
structure Res where
  draft : Draft
  contents : Json

/-- Named location within a resource. -/
structure Anchor where
  name : String
  resource : Res

/-- Modelled from the spec: the identifier keyword value of a node, a dollar-id
in draft 6 and later and a plain id in draft 4, only when the node is an object
whose value under that key is a string; legacy fragment-only ids declare
anchors, not identifiers. -/
def idOf (d : Draft) (v : Json) : Option String :=
  match d with
  | .draft4 =>
    match objGet v "id" with
    | some (.str s) => if strStartsWith s "#" then none else some s
    | _ => none
  | .draft6 | .draft7 =>
    match objGet v "$id" with
    | some (.str s) => if strStartsWith s "#" then none else some s
    | _ => none
  | .draft201909 | .draft202012 =>
    match objGet v "$id" with
    | some (.str s) => some s
    | _ => none

/-- Modelled from the spec: anchors declared by a node (the dollar-anchor
keyword in recent drafts, plus the dynamic anchor keyword in 2020-12; legacy
fragment ids in older drafts). -/
def anchorsOf (d : Draft) (v : Json) : List Anchor :=
  match d with
  | .draft202012 =>
    (match objGet v "$anchor" with
     | some (.str a) => [⟨a, ⟨d, v⟩⟩]
     | _ => []) ++
    (match objGet v "$dynamicAnchor" with
     | some (.str a) => [⟨a, ⟨d, v⟩⟩]
     | _ => [])
  | .draft201909 =>
    match objGet v "$anchor" with
    | some (.str a) => [⟨a, ⟨d, v⟩⟩]
    | _ => []
  | .draft6 | .draft7 =>
    match objGet v "$id" with
    | some (.str a) => if strStartsWith a "#" then [⟨strDrop1 a, ⟨d, v⟩⟩] else []
    | _ => []
  | .draft4 =>
    match objGet v "id" with
    | some (.str a) => if strStartsWith a "#" then [⟨strDrop1 a, ⟨d, v⟩⟩] else []
    | _ => []

/-- Keywords whose value is itself one schema. -/
def inPlaceKeywords : List String :=
  ["additionalProperties", "contains", "else", "if", "items", "not",
   "propertyNames", "then"]

/-- Keywords whose value is an array of schemas. -/
def arrayKeywords : List String :=
  ["allOf", "anyOf", "oneOf", "prefixItems"]

/-- Keywords whose value is an object of named schemas. -/
def objectKeywords : List String :=
  ["$defs", "definitions", "properties", "patternProperties", "dependentSchemas"]

/-- Modelled from the spec: the child nodes of a node that are themselves
schemas per the draft's keyword catalog, not descending into keywords whose
values are data (a representative catalog shared by the drafts; no claim in
scope depends on per-draft differences). -/
def subresourcesOf (_d : Draft) (v : Json) : List Json :=
  match v with
  | .obj members =>
    members.flatMap (fun p =>
      if p.1 ∈ inPlaceKeywords then [p.2]
      else if p.1 ∈ arrayKeywords then
        match p.2 with
        | .arr l => l
        | _ => []
      else if p.1 ∈ objectKeywords then
        match p.2 with
        | .obj m => m.map (fun q => q.2)
        | _ => []
      else [])
  | _ => []

/-- Canonical URIs of the known meta-schemas. -/
def knownDraft (s : String) : Option Draft :=
  if s = "https://json-schema.org/draft/2020-12/schema" then some .draft202012
  else if s = "https://json-schema.org/draft/2019-09/schema" then some .draft201909
  else if s = "http://json-schema.org/draft-07/schema" then some .draft7
  else if s = "http://json-schema.org/draft-06/schema" then some .draft6
  else if s = "http://json-schema.org/draft-04/schema" then some .draft4
  else none

/-- Modelled from the spec: draft detection reads the dollar-schema member and
matches it against the known meta-schema URIs; absence falls back to the given
default, an unknown URI is an UnknownSpecification error (Draft::detect). -/
def detectDraft (dflt : Draft) (v : Json) : Except Error Draft :=
  match objGet v "$schema" with
  | some (.str s) =>
    match knownDraft (dropTrailingHashes s) with
    | some d => .ok d
    | none => .error (.unknownSpecification s)
  | _ => .ok dflt

/-- Modelled from the spec: JSON Pointer segment unescaping, tilde-one to slash
then tilde-zero to tilde (resource::unescape_segment is not among the sources
in scope). -/
def unescapeChars : List Char → List Char
  | [] => []
  | '~' :: '1' :: rest => '/' :: unescapeChars rest
  | '~' :: '0' :: rest => '~' :: unescapeChars rest
  | c :: rest => c :: unescapeChars rest

/-- Character-level unescaping of one pointer segment. -/
def unescapeSegment (s : String) : String :=
  (unescapeChars s.toList).asString

/-- Decimal parse of a nonempty digit string.  Rust parses into usize, where
overflow is an error; an index that large also exceeds any array length, so
the observable result of the pointer walk is unchanged by using Nat. -/
def parseNat (s : String) : Option Nat :=
  if s ≠ "" ∧ s.toList.all Char.isDigit then
    some (s.toList.foldl (fun acc c => acc * 10 + (c.toNat - 48)) 0)
  else none

/-- Array index parsing of the pointer walk, taken from serde_json: a leading
plus or a leading zero on a multi-character segment is rejected. -/
def parse_index (s : String) : Option Nat :=
  if strStartsWith s "+" || (strStartsWith s "0" && s.length ≠ 1) then none
  else parseNat s

/-- One descent step of the pointer walk: objects by key, arrays by index. -/
def pointerStep (target : Json) (token : String) : Option Json :=
  match target with
  | .obj m => (m.find? (fun p => p.1 == token)).map (fun p => p.2)
  | .arr l => (parse_index token).bind (fun i => l[i]?)
  | _ => none

/-- JSON Pointer resolution as written in the source: the empty pointer is the
document itself, a pointer not starting with a slash resolves to nothing, and
otherwise the walk folds over the unescaped segments. -/
def pointer (document : Json) (ptr : String) : Option Json :=
  if ptr = "" then some document
  else if ¬ strStartsWith ptr "/" then none
  else ((((splitOnChar '/' ptr.toList).map List.asString).drop 1).map
    unescapeSegment).foldlM pointerStep document

/-- Retriever contract: an absolute fragmentless URI to a JSON value, or an
error convertible to a string cause. -/
abbrev Retriever := Uri → Except String Json

/-- Well-known meta-schema URI beginnings checked by the builder. -/
def metaHttps : String := "https://json-schema.org/draft/"

/-- The second well-known meta-schema URI beginning. -/
def metaHttp : String := "http://json-schema.org/draft-"

/-- State of one process_resources run.  The calls field is verification
instrumentation recording every retriever invocation in order; the err field
models the early return of the question-mark operator: once it is set every
step is a no-op and the caller reports the error. -/
structure BuildState where
  documents : List (Uri × Json)
  resources : List (Uri × Res)
  anchors : List ((Uri × String) × Anchor)
  queue : List (Uri × Res)
  seen : List (String × String)
  external : List Uri
  refersMetaschemas : Bool
  calls : List Uri
  err : Option Error

/-- Resolution of a non-local reference as done inside
collect_external_resources: when the base carries a fragment, the reference
path is resolved against the fragmentless base and the reference fragment is
re-attached after encoding; otherwise the reference resolves against the base
directly. -/
def resolveReference (base : Uri) (r : String) : Except Error Uri :=
  if base.fragment.isSome then
    match resolveAgainst base.dropFragment (splitRefFragment r).1 with
    | .error e => .error e
    | .ok res =>
      .ok (match (splitRefFragment r).2 with
           | some frag => { res with fragment := some (encodeFragment frag) }
           | none => res)
  else resolveAgainst base r

/-- One reference string, as handled by the on_reference macro arm inside
collect_external_resources: meta-schema prefixes are skipped (setting the flag
for a dollar-ref), the bare self-reference is skipped, the (base, reference)
fingerprint is consulted and recorded, local pointers are followed recursively
within the node (through the given recursion function), and anything else is
resolved and added to the external set. -/
def onReferenceWith (recur : Json → BuildState → Option BuildState) (base : Uri)
    (contents : Json) (r : String) (isRef : Bool) (st : BuildState) :
    Option BuildState :=
  if st.err.isSome then some st
  else if strStartsWith r metaHttps || strStartsWith r metaHttp
      || strStartsWith (Uri.toStr base) metaHttps then
    some (if isRef then { st with refersMetaschemas := true } else st)
  else if r = "#" then some st
  else if (base.toStr, r) ∈ st.seen then some st
  else if strStartsWith r "#" then
    match pointer contents (r.toList.dropWhile (fun c => c == '#')).asString with
    | some referenced =>
      recur referenced { st with seen := (base.toStr, r) :: st.seen }
    | none => some { st with seen := (base.toStr, r) :: st.seen }
  else
    match resolveReference base r with
    | .error e => some { st with seen := (base.toStr, r) :: st.seen, err := some e }
    | .ok u =>
      some { st with seen := (base.toStr, r) :: st.seen,
                     external := if u ∈ st.external then st.external else st.external ++ [u] }

/-- collect_external_resources from the source: nothing is collected under a
urn base; only the dollar-ref and dollar-schema members of the node itself are
inspected (the source iterates small objects and does two direct lookups on
larger ones, with identical visible behavior); local pointer references recurse
into the referenced node with one unit of fuel consumed. -/
def collectExternal (fuel : Nat) (base : Uri) (contents : Json)
    (st : BuildState) : Option BuildState :=
  if st.err.isSome then some st
  else if base.scheme = "urn" then some st
  else
    match fuel with
    | 0 => none
    | f + 1 =>
      match
        (match objGet contents "$ref" with
         | some (.str r) =>
           onReferenceWith (fun c s => collectExternal f base c s)
             base contents r true st
         | _ => some st) with
      | none => none
      | some st1 =>
        match objGet contents "$schema" with
        | some (.str r) =>
          onReferenceWith (fun c s => collectExternal f base c s)
            base contents r false st1
        | _ => some st1

/-- Continuation of a drain step after id aliasing: record the anchors under
the effective base, collect external references, and enqueue the subresources. -/
def drainCont (fuel : Nat) (base' : Uri) (res : Res) (st1 : BuildState) :
    Option BuildState :=
  match collectExternal fuel base' res.contents
      { st1 with
        anchors := (anchorsOf res.draft res.contents).foldl
          (fun m a => ainsert (base', a.name) a m) st1.anchors } with
  | none => none
  | some st3 =>
    if st3.err.isSome then some st3
    else some { st3 with
      queue := st3.queue ++
        (subresourcesOf res.draft res.contents).map
          (fun c => (base', (⟨res.draft, c⟩ : Res))) }

/-- One step of the inner discovery loop of process_resources: pop the front
queue element, record the id alias (overwriting any previous resource under
that URI), then record anchors, collect external references, and enqueue the
subresources. -/
def drainStep (fuel : Nat) (st : BuildState) : Option BuildState :=
  match st.queue with
  | [] => some st
  | (base, res) :: rest =>
    match idOf res.draft res.contents with
    | some id =>
      match resolveAgainst base id with
      | .error e => some { st with queue := rest, err := some e }
      | .ok b =>
        drainCont fuel b res
          { st with queue := rest, resources := ainsert b res st.resources }
    | none => drainCont fuel base res { st with queue := rest }

/-- Full drain of the discovery queue (the inner while loop). -/
def processQueue : Nat → BuildState → Option BuildState
  | 0, st =>
    if st.err.isSome then some st
    else
      match st.queue with
      | [] => some st
      | _ :: _ => none
  | f + 1, st =>
    if st.err.isSome then some st
    else
      match st.queue with
      | [] => some st
      | _ :: _ =>
        match drainStep f st with
        | none => none
        | some st1 => processQueue f st1

/-- Retrieval of one drained external URI (the body of the for loop over
external.drain): strip the fragment, skip URIs whose document is already a
known resource, call the retriever exactly once otherwise, intern the result,
and enqueue the document plus, when the original reference carried a pointer
fragment, the pointed-to node as an extra discovery root. -/
def retrieveOne (retriever : Retriever) (defaultD : Draft) (st : BuildState)
    (u : Uri) : BuildState :=
  if st.err.isSome then st
  else
    match alookup st.resources u.dropFragment with
    | some _ => st
    | none =>
      match retriever u.dropFragment with
      | .error cause =>
        { st with calls := st.calls ++ [u.dropFragment],
                  err := some (.unretrievable u.dropFragment.toStr cause) }
      | .ok retrieved =>
        match detectDraft defaultD retrieved with
        | .error e =>
          { st with calls := st.calls ++ [u.dropFragment], err := some e }
        | .ok draft =>
          match u.fragment with
          | some f =>
            match pointer retrieved f with
            | some resolved =>
              match detectDraft defaultD resolved with
              | .error e =>
                { st with calls := st.calls ++ [u.dropFragment],
                          documents := ainsert u.dropFragment retrieved st.documents,
                          resources := ainsert u.dropFragment (⟨draft, retrieved⟩ : Res) st.resources,
                          err := some e }
              | .ok d2 =>
                { st with calls := st.calls ++ [u.dropFragment],
                          documents := ainsert u.dropFragment retrieved st.documents,
                          resources := ainsert u.dropFragment (⟨draft, retrieved⟩ : Res) st.resources,
                          queue := st.queue ++
                            [(u.dropFragment, (⟨d2, resolved⟩ : Res)),
                             (u.dropFragment, (⟨draft, retrieved⟩ : Res))] }
            | none =>
              { st with calls := st.calls ++ [u.dropFragment],
                        documents := ainsert u.dropFragment retrieved st.documents,
                        resources := ainsert u.dropFragment (⟨draft, retrieved⟩ : Res) st.resources,
                        queue := st.queue ++ [(u.dropFragment, (⟨draft, retrieved⟩ : Res))] }
          | none =>
            { st with calls := st.calls ++ [u.dropFragment],
                      documents := ainsert u.dropFragment retrieved st.documents,
                      resources := ainsert u.dropFragment (⟨draft, retrieved⟩ : Res) st.resources,
                      queue := st.queue ++ [(u.dropFragment, (⟨draft, retrieved⟩ : Res))] }

/-- Drain of the external set (retrieval step of the fixed-point loop). -/
def processExternal (retriever : Retriever) (defaultD : Draft)
    (st : BuildState) : BuildState :=
  let st1 := st.external.foldl (retrieveOne retriever defaultD) st
  { st1 with external := [] }

/-- Outer fixed-point loop of process_resources: repeat queue drain and
external retrieval until both the queue and the external set are empty. -/
def buildLoop : Nat → Retriever → Draft → BuildState → Option BuildState
  | 0, _, _, st =>
    if st.err.isSome then some st
    else if st.queue.isEmpty && st.external.isEmpty then some st
    else none
  | f + 1, retriever, defaultD, st =>
    if st.err.isSome then some st
    else if st.queue.isEmpty && st.external.isEmpty then some st
    else
      match processQueue f st with
      | none => none
      | some st1 =>
        if st1.err.isSome then some st1
        else buildLoop f retriever defaultD (processExternal retriever defaultD st1)

/-- Input parsing of phase 0: parse each input URI after stripping trailing
hashes; the first parse failure aborts the build. -/
def normalizeInputs (pairs : List (String × Res)) : Except Error (List (Uri × Res)) :=
  pairs.mapM (fun p => (parseUri (dropTrailingHashes p.1)).map (fun u => (u, p.2)))

/-- Walk of Vec::dedup_by comparing each candidate against the last retained
element. -/
def dedupAux (last : Uri × Res) : List (Uri × Res) → List (Uri × Res)
  | [] => []
  | y :: rest =>
    if last.1 = y.1 then dedupAux last rest
    else y :: dedupAux y rest

/-- Vec::dedup_by over the reversed inputs: consecutive pairs with equal URIs
are collapsed keeping the first of each run. -/
def dedupByUri : List (Uri × Res) → List (Uri × Res)
  | [] => []
  | x :: rest => x :: dedupAux x rest

/-- Interning of the surviving input pairs: an already-present document key is
left untouched (the registry never overwrites existing documents), a vacant
one receives the document, the resource, and a queue entry. -/
def insertInputs : List (Uri × Res) → BuildState → BuildState
  | [], st => st
  | (u, r) :: rest, st =>
    match alookup st.documents u with
    | some _ => insertInputs rest st
    | none =>
      insertInputs rest
        { st with
          documents := ainsert u r.contents st.documents,
          resources := ainsert u r st.resources,
          queue := st.queue ++ [(u, r)] }

/-- Modelled from the spec: the statically built meta-schema table
(SPECIFICATIONS).  Its concrete contents come from the meta module, which is
not among the sources in scope, so the build is parameterized by the table. -/
structure SpecTable where
  resources : List (Uri × Res)
  anchors : List ((Uri × String) × Anchor)

/-- Phase 2, meta-schema injection: copy the table's resources and anchors
into the build maps. -/
def mergeSpecs (specs : SpecTable) (st : BuildState) : BuildState :=
  { st with
    resources := specs.resources.foldl (fun m p => ainsert p.1 p.2 m) st.resources,
    anchors := specs.anchors.foldl (fun m p => ainsert p.1 p.2 m) st.anchors }

/-- Fresh build state over possibly pre-populated maps. -/
def initState (documents : List (Uri × Json)) (resources : List (Uri × Res))
    (anchors : List ((Uri × String) × Anchor)) : BuildState :=
  { documents := documents, resources := resources, anchors := anchors,
    queue := [], seen := [], external := [], refersMetaschemas := false,
    calls := [], err := none }

/-- process_resources from the source: normalize and deduplicate the inputs,
intern them, run the fixed-point loop, and inject the meta-schema table when
a meta-schema reference was observed. -/
def processResources (fuel : Nat) (pairs : List (String × Res))
    (retriever : Retriever) (defaultD : Draft) (specs : SpecTable)
    (st0 : BuildState) : Option BuildState :=
  match normalizeInputs pairs with
  | .error e => some { st0 with err := some e }
  | .ok parsed =>
    match buildLoop fuel retriever defaultD
        (insertInputs (dedupByUri parsed.reverse) st0) with
    | none => none
    | some st2 =>
      if st2.err.isSome then some st2
      else if st2.refersMetaschemas then some (mergeSpecs specs st2)
      else some st2

/-- Frozen read-only product of a build. -/
structure Registry where
  documents : List (Uri × Json)
  resources : List (Uri × Res)
  anchors : List ((Uri × String) × Anchor)

/-- Freezing a finished build state into a registry. -/
def freeze (st : BuildState) : Registry :=
  ⟨st.documents, st.resources, st.anchors⟩

/-- Mapping a finished build state to the result the builder returns: the
recorded error aborts the build, otherwise the frozen registry. -/
def toResult (st : BuildState) : Except Error Registry :=
  match st.err with
  | some e => .error e
  | none => .ok (freeze st)

/-- Registry::try_from_resources over empty maps, parameterized by fuel for
the fixed-point loop. -/
def tryFromResources (fuel : Nat) (pairs : List (String × Res))
    (retriever : Retriever) (defaultD : Draft) (specs : SpecTable) :
    Option (Except Error Registry) :=
  (processResources fuel pairs retriever defaultD specs (initState [] [] [])).map toResult

/-- Registry::try_with_resources_and_retriever: run the builder again over the
combined state of an existing registry. -/
def Registry.tryWithResourcesAndRetriever (reg : Registry) (fuel : Nat)
    (pairs : List (String × Res)) (retriever : Retriever) (defaultD : Draft)
    (specs : SpecTable) : Option (Except Error Registry) :=
  (processResources fuel pairs retriever defaultD specs
    (initState reg.documents reg.resources reg.anchors)).map toResult

/-- Registry::anchor from the source.  The none result models the panic of
indexing the resource map with an absent key; the parse error of a fallback
id propagates through the question-mark operator. -/
def Registry.anchor (reg : Registry) (uri : Uri) (name : String) :
    Option (Except Error Anchor) :=
  match alookup reg.anchors (uri, name) with
  | some a => some (.ok a)
  | none =>
    match alookup reg.resources uri with
    | none => none
    | some res =>
      match
        (match idOf res.draft res.contents with
         | some id =>
           match parseUri id with
           | .error e => Except.error e
           | .ok v => Except.ok (alookup reg.anchors (v, name))
         | none => Except.ok none) with
      | .error e => some (.error e)
      | .ok (some a) => some (.ok a)
      | .ok none =>
        some (.error (if strContains name '/' then .invalidAnchor name else .noSuchAnchor name))

theorem alookup_ainsert_self {α β : Type} [DecidableEq α] (k : α) (v : β)
    (m : List (α × β)) : alookup (ainsert k v m) k = some v := by
  simp [alookup, ainsert]

theorem alookup_ainsert_ne {α β : Type} [DecidableEq α] {k u : α} (v : β)
    (m : List (α × β)) (h : u ≠ k) : alookup (ainsert k v m) u = alookup m u := by
  simp [alookup, ainsert, List.find?_cons, Ne.symm h]

theorem alookup_ainsert_isSome {α β : Type} [DecidableEq α] (k : α) (v : β)
    {m : List (α × β)} {u : α} (h : (alookup m u).isSome) :
    (alookup (ainsert k v m) u).isSome := by
  by_cases hk : u = k
  · subst hk; simp [alookup_ainsert_self]
  · rw [alookup_ainsert_ne v m hk]; exact h

theorem alookup_foldl_ainsert_isSome {α β : Type} [DecidableEq α]
    (l : List (α × β)) {m : List (α × β)} {u : α} (h : (alookup m u).isSome) :
    (alookup (l.foldl (fun acc p => ainsert p.1 p.2 acc) m) u).isSome := by
  induction l generalizing m with
  | nil => exact h
  | cons p rest ih => exact ih (alookup_ainsert_isSome p.1 p.2 h)

theorem alookup_foldl_ainsert_of_notmem {α β : Type} [DecidableEq α]
    {l : List (α × β)} {u : α} (m : List (α × β)) (h : u ∉ l.map Prod.fst) :
    alookup (l.foldl (fun acc p => ainsert p.1 p.2 acc) m) u = alookup m u := by
  induction l generalizing m with
  | nil => rfl
  | cons p rest ih =>
    simp only [List.map_cons, List.mem_cons, not_or] at h
    rw [List.foldl_cons, ih _ h.2, alookup_ainsert_ne _ _ h.1]

theorem alookup_foldl_ainsert_of_mem {α β : Type} [DecidableEq α]
    {l : List (α × β)} {k : α} {v : β} (m : List (α × β))
    (hnd : (l.map Prod.fst).Nodup) (hmem : (k, v) ∈ l) :
    alookup (l.foldl (fun acc p => ainsert p.1 p.2 acc) m) k = some v := by
  induction l generalizing m with
  | nil => cases hmem
  | cons p rest ih =>
    simp only [List.map_cons, List.nodup_cons] at hnd
    rcases List.mem_cons.mp hmem with heq | hmem'
    · subst heq
      rw [List.foldl_cons, alookup_foldl_ainsert_of_notmem _ hnd.1,
        alookup_ainsert_self]
    · exact ih _ hnd.2 hmem'

/-- Effects footprint of reference collection: it never touches the document
store, the resource map, the anchor map, the queue, or the call trace. -/
def CollectFootprint (st st' : BuildState) : Prop :=
  st'.documents = st.documents ∧ st'.resources = st.resources ∧
  st'.anchors = st.anchors ∧ st'.queue = st.queue ∧ st'.calls = st.calls

theorem collectFootprint_refl (st : BuildState) : CollectFootprint st st :=
  ⟨rfl, rfl, rfl, rfl, rfl⟩

theorem collectFootprint_trans {a b c : BuildState}
    (h1 : CollectFootprint a b) (h2 : CollectFootprint b c) :
    CollectFootprint a c := by
  obtain ⟨d1, r1, n1, q1, c1⟩ := h1
  obtain ⟨d2, r2, n2, q2, c2⟩ := h2
  exact ⟨d2.trans d1, r2.trans r1, n2.trans n1, q2.trans q1, c2.trans c1⟩

theorem onReferenceWith_of_err (recur : Json → BuildState → Option BuildState)
    (base : Uri) (contents : Json) (r : String) (isRef : Bool) (st : BuildState)
    (h : st.err.isSome) :
    onReferenceWith recur base contents r isRef st = some st := by
  unfold onReferenceWith
  rw [if_pos h]

theorem collectExternal_of_err (fuel : Nat) (base : Uri) (contents : Json)
    (st : BuildState) (h : st.err.isSome) :
    collectExternal fuel base contents st = some st := by
  rw [collectExternal.eq_def, if_pos h]

theorem onReferenceWith_effects (recur : Json → BuildState → Option BuildState)
    (hrec : ∀ c s s', recur c s = some s' → CollectFootprint s s') :
    ∀ base contents r isRef st st', onReferenceWith recur base contents r isRef st = some st' →
      CollectFootprint st st' := by
  intro base contents r isRef st st' h
  unfold onReferenceWith at h
  split at h
  · exact Option.some.inj h ▸ collectFootprint_refl st
  split at h
  · split at h <;> exact Option.some.inj h ▸ ⟨rfl, rfl, rfl, rfl, rfl⟩
  split at h
  · exact Option.some.inj h ▸ collectFootprint_refl st
  split at h
  · exact Option.some.inj h ▸ collectFootprint_refl st
  split at h
  · split at h
    · have hmid := hrec _ _ _ h
      exact collectFootprint_trans ⟨rfl, rfl, rfl, rfl, rfl⟩ hmid
    · exact Option.some.inj h ▸ ⟨rfl, rfl, rfl, rfl, rfl⟩
  · split at h <;> exact Option.some.inj h ▸ ⟨rfl, rfl, rfl, rfl, rfl⟩

theorem collect_effects :
    ∀ fuel base contents st st', collectExternal fuel base contents st = some st' →
      CollectFootprint st st' := by
  intro fuel
  induction fuel with
  | zero =>
    intro base contents st st' h
    rw [collectExternal.eq_1] at h
    split at h
    · exact Option.some.inj h ▸ collectFootprint_refl st
    split at h
    · exact Option.some.inj h ▸ collectFootprint_refl st
    exact absurd h (by simp)
  | succ f ih =>
    intro base contents st st' h
    have hon := onReferenceWith_effects (fun c s => collectExternal f base c s)
      (fun c s s' hh => ih base c s s' hh)
    rw [collectExternal.eq_2] at h
    split at h
    · exact Option.some.inj h ▸ collectFootprint_refl st
    split at h
    · exact Option.some.inj h ▸ collectFootprint_refl st
    split at h
    · exact absurd h (by simp)
    · rename_i st1 hst1
      have h1 : CollectFootprint st st1 := by
        revert hst1
        split
        · intro hst1; exact hon _ _ _ _ _ _ hst1
        · intro hst1; exact Option.some.inj hst1 ▸ collectFootprint_refl st
      have h2 : CollectFootprint st1 st' := by
        revert h
        split
        · intro h; exact hon _ _ _ _ _ _ h
        · intro h; exact Option.some.inj h ▸ collectFootprint_refl st1
      exact collectFootprint_trans h1 h2


/-- Map preservation along build steps: resource keys never disappear and the
document binding of a URI that is a resource key never changes. -/
def Pres (st st' : BuildState) : Prop :=
  ∀ u, (alookup st.resources u).isSome →
    (alookup st'.resources u).isSome ∧ alookup st'.documents u = alookup st.documents u

theorem pres_refl (st : BuildState) : Pres st st := fun _ h => ⟨h, rfl⟩

theorem pres_trans {a b c : BuildState} (h1 : Pres a b) (h2 : Pres b c) :
    Pres a c := by
  intro u hu
  obtain ⟨hb, hdb⟩ := h1 u hu
  obtain ⟨hc, hdc⟩ := h2 u hb
  exact ⟨hc, hdc.trans hdb⟩

theorem pres_of_footprint {st st' : BuildState} (h : CollectFootprint st st') :
    Pres st st' := by
  intro u hu
  rw [h.2.1, h.1]
  exact ⟨hu, rfl⟩

/-- Build invariant tying the retriever call trace to the maps: the calls are
pairwise distinct; while no error is recorded every called URI is a key of the
resource map; and once some recorded call has failed, the recorded error is
exactly the unretrievable error of that call. -/
def Inv (retriever : Retriever) (st : BuildState) : Prop :=
  st.calls.Nodup ∧
  (st.err = none → ∀ u ∈ st.calls, (alookup st.resources u).isSome) ∧
  (∀ u c, u ∈ st.calls → retriever u = Except.error c →
    st.err = some (.unretrievable u.toStr c))

theorem collectExternal_inv (retr : Retriever) (fuel : Nat) (base : Uri)
    (contents : Json) {st st' : BuildState}
    (h : collectExternal fuel base contents st = some st') :
    Pres st st' ∧ st'.calls = st.calls ∧ (Inv retr st → Inv retr st') := by
  have hfp := collect_effects fuel base contents st st' h
  refine ⟨pres_of_footprint hfp, hfp.2.2.2.2, ?_⟩
  intro hinv
  cases herr : st.err with
  | some e =>
    have hself := collectExternal_of_err fuel base contents st (by simp [herr])
    rw [hself] at h
    rw [(Option.some.inj h).symm]
    exact hinv
  | none =>
    obtain ⟨h1, h2, h3⟩ := hinv
    refine ⟨?_, ?_, ?_⟩
    · rw [hfp.2.2.2.2]; exact h1
    · intro _ u hu
      rw [hfp.2.1]
      rw [hfp.2.2.2.2] at hu
      exact h2 herr u hu
    · intro u c hu hc
      rw [hfp.2.2.2.2] at hu
      have h4 := h3 u c hu hc
      rw [herr] at h4
      cases h4

theorem drainCont_inv (retr : Retriever) (fuel : Nat) (base' : Uri) (res : Res)
    {st1 st' : BuildState} (h : drainCont fuel base' res st1 = some st') :
    st'.documents = st1.documents ∧ st'.calls = st1.calls ∧
    (∀ u, (alookup st1.resources u).isSome → (alookup st'.resources u).isSome) ∧
    (Inv retr st1 → Inv retr st') := by
  unfold drainCont at h
  split at h
  · cases h
  · rename_i st3 hce
    obtain ⟨hpres, hcalls, hinv⟩ := collectExternal_inv retr _ _ _ hce
    split at h
    · rw [(Option.some.inj h).symm]
      refine ⟨?_, hcalls, ?_, hinv⟩
      · have hfp := collect_effects _ _ _ _ _ hce
        exact hfp.1
      · intro u hu
        exact (hpres u hu).1
    · rw [(Option.some.inj h).symm]
      have hfp := collect_effects _ _ _ _ _ hce
      refine ⟨hfp.1, hcalls, ?_, hinv⟩
      intro u hu
      exact (hpres u hu).1

theorem drainStep_inv (retr : Retriever) (fuel : Nat) {st st' : BuildState}
    (herr : st.err = none) (h : drainStep fuel st = some st') :
    st'.documents = st.documents ∧ st'.calls = st.calls ∧
    (∀ u, (alookup st.resources u).isSome → (alookup st'.resources u).isSome) ∧
    (Inv retr st → Inv retr st') := by
  unfold drainStep at h
  split at h
  · rw [(Option.some.inj h).symm]
    exact ⟨rfl, rfl, fun u hu => hu, id⟩
  · rename_i base res rest hq
    split at h
    · rename_i id hid
      split at h
      · rename_i e hres
        rw [(Option.some.inj h).symm]
        refine ⟨rfl, rfl, fun u hu => hu, ?_⟩
        intro ⟨h1, h2, h3⟩
        refine ⟨h1, ?_, ?_⟩
        · intro hcontra
          simp at hcontra
        · intro u c hu hc
          have h4 := h3 u c hu hc
          rw [herr] at h4
          cases h4
      · rename_i b hres
        obtain ⟨hd, hc, hr, hi⟩ := drainCont_inv retr fuel b res h
        refine ⟨hd, hc, ?_, ?_⟩
        · intro u hu
          exact hr u (alookup_ainsert_isSome b res hu)
        · intro ⟨h1, h2, h3⟩
          refine hi ⟨h1, ?_, h3⟩
          intro herr2 u hu
          exact alookup_ainsert_isSome b res (h2 herr2 u hu)
    · obtain ⟨hd, hc, hr, hi⟩ := drainCont_inv retr fuel base res h
      exact ⟨hd, hc, hr, hi⟩

theorem processQueue_inv (retr : Retriever) : ∀ (fuel : Nat) {st st' : BuildState},
    processQueue fuel st = some st' →
    st'.documents = st.documents ∧ st'.calls = st.calls ∧
    (∀ u, (alookup st.resources u).isSome → (alookup st'.resources u).isSome) ∧
    (Inv retr st → Inv retr st') := by
  intro fuel
  induction fuel with
  | zero =>
    intro st st' h
    unfold processQueue at h
    split at h
    · rw [(Option.some.inj h).symm]; exact ⟨rfl, rfl, fun u hu => hu, id⟩
    · split at h
      · rw [(Option.some.inj h).symm]; exact ⟨rfl, rfl, fun u hu => hu, id⟩
      · cases h
  | succ f ih =>
    intro st st' h
    unfold processQueue at h
    split at h
    · rw [(Option.some.inj h).symm]; exact ⟨rfl, rfl, fun u hu => hu, id⟩
    · rename_i hne
      split at h
      · rw [(Option.some.inj h).symm]; exact ⟨rfl, rfl, fun u hu => hu, id⟩
      · split at h
        · cases h
        · rename_i st1 hd
          have herr : st.err = none := Option.not_isSome_iff_eq_none.mp hne
          obtain ⟨hd1, hc1, hr1, hi1⟩ := drainStep_inv retr f herr hd
          obtain ⟨hd2, hc2, hr2, hi2⟩ := ih h
          exact ⟨hd2.trans hd1, hc2.trans hc1, fun u hu => hr2 u (hr1 u hu),
            fun hv => hi2 (hi1 hv)⟩

theorem retrieveOne_inv (retr : Retriever) (dd : Draft) (st : BuildState) (u : Uri) :
    Pres st (retrieveOne retr dd st u) ∧
    (Inv retr st → Inv retr (retrieveOne retr dd st u)) := by
  unfold retrieveOne
  split
  · exact ⟨pres_refl st, id⟩
  rename_i hne
  have herr : st.err = none := Option.not_isSome_iff_eq_none.mp hne
  split
  · exact ⟨pres_refl st, id⟩
  rename_i halook
  have hnotin : ∀ hinv : Inv retr st, u.dropFragment ∉ st.calls := by
    intro hinv hmem
    have := hinv.2.1 herr u.dropFragment hmem
    rw [halook] at this
    cases this
  have hnodup : ∀ hinv : Inv retr st, (st.calls ++ [u.dropFragment]).Nodup := by
    intro hinv
    rw [List.nodup_append]
    exact ⟨hinv.1, List.nodup_singleton _, by
      intro x hx hx1
      rw [List.mem_singleton] at hx1
      exact hnotin hinv (hx1 ▸ hx)⟩
  have hold : ∀ hinv : Inv retr st, ∀ u' ∈ st.calls, ∀ c,
      retr u' = Except.error c → False := by
    intro hinv u' hu' c hc
    have h4 := hinv.2.2 u' c hu' hc
    rw [herr] at h4
    cases h4
  have hpres : ∀ (j : Json) (r : Res),
      Pres st { st with calls := st.calls ++ [u.dropFragment],
                        documents := ainsert u.dropFragment j st.documents,
                        resources := ainsert u.dropFragment r st.resources } := by
    intro j r u' hu'
    have hne2 : u' ≠ u.dropFragment := by
      intro hcontra
      rw [hcontra, halook] at hu'
      cases hu'
    exact ⟨alookup_ainsert_isSome _ _ hu', alookup_ainsert_ne _ _ hne2⟩
  split
  · -- retriever failure
    rename_i cause hc
    refine ⟨fun u' hu' => ⟨hu', rfl⟩, ?_⟩
    intro hinv
    refine ⟨hnodup hinv, ?_, ?_⟩
    · intro hcontra
      simp at hcontra
    · intro u' c hu' hc2
      rcases List.mem_append.mp hu' with hu' | hu'
      · exact absurd hc2 (fun hc2 => hold hinv u' hu' c hc2)
      · rw [List.mem_singleton] at hu'
        subst hu'
        rw [hc] at hc2
        rw [Except.error.inj hc2]
  · rename_i retrieved hc
    split
    · -- draft detection failure
      refine ⟨fun u' hu' => ⟨hu', rfl⟩, ?_⟩
      intro hinv
      refine ⟨hnodup hinv, ?_, ?_⟩
      · intro hcontra
        simp at hcontra
      · intro u' c hu' hc2
        rcases List.mem_append.mp hu' with hu' | hu'
        · exact absurd hc2 (fun hc2 => hold hinv u' hu' c hc2)
        · rw [List.mem_singleton] at hu'
          subst hu'
          rw [hc] at hc2
          cases hc2
    · rename_i draft hdet
      have hinvgood : ∀ (j : Json) (r : Res),
          Inv retr st →
          Inv retr { st with calls := st.calls ++ [u.dropFragment],
                             documents := ainsert u.dropFragment j st.documents,
                             resources := ainsert u.dropFragment r st.resources } := by
        intro j r hinv
        refine ⟨hnodup hinv, ?_, ?_⟩
        · intro _ u' hu'
          rcases List.mem_append.mp hu' with hu' | hu'
          · exact alookup_ainsert_isSome _ _ (hinv.2.1 herr u' hu')
          · rw [List.mem_singleton] at hu'
            subst hu'
            rw [alookup_ainsert_self]
            rfl
        · intro u' c hu' hc2
          rcases List.mem_append.mp hu' with hu' | hu'
          · exact absurd hc2 (fun hc2 => hold hinv u' hu' c hc2)
          · rw [List.mem_singleton] at hu'
            subst hu'
            rw [hc] at hc2
            cases hc2
      split
      · split
        · split
          · -- fragment pointer found but detection fails
            refine ⟨fun u' hu' => ?_, ?_⟩
            · obtain ⟨ha, hb⟩ := hpres retrieved ⟨draft, retrieved⟩ u' hu'
              exact ⟨ha, hb⟩
            · intro hinv
              refine ⟨hnodup hinv, ?_, ?_⟩
              · intro hcontra
                simp at hcontra
              · intro u' c hu' hc2
                rcases List.mem_append.mp hu' with hu' | hu'
                · exact absurd hc2 (fun hc2 => hold hinv u' hu' c hc2)
                · rw [List.mem_singleton] at hu'
                  subst hu'
                  rw [hc] at hc2
                  cases hc2
          · exact ⟨hpres retrieved ⟨draft, retrieved⟩, hinvgood retrieved ⟨draft, retrieved⟩⟩
        · exact ⟨hpres retrieved ⟨draft, retrieved⟩, hinvgood retrieved ⟨draft, retrieved⟩⟩
      · exact ⟨hpres retrieved ⟨draft, retrieved⟩, hinvgood retrieved ⟨draft, retrieved⟩⟩

theorem foldl_retrieveOne_inv (retr : Retriever) (dd : Draft) :
    ∀ (l : List Uri) (st : BuildState),
    Pres st (l.foldl (retrieveOne retr dd) st) ∧
    (Inv retr st → Inv retr (l.foldl (retrieveOne retr dd) st)) := by
  intro l
  induction l with
  | nil => exact fun st => ⟨pres_refl st, id⟩
  | cons u rest ih =>
    intro st
    obtain ⟨p1, i1⟩ := retrieveOne_inv retr dd st u
    obtain ⟨p2, i2⟩ := ih (retrieveOne retr dd st u)
    exact ⟨pres_trans p1 p2, fun hv => i2 (i1 hv)⟩

theorem processExternal_inv (retr : Retriever) (dd : Draft) (st : BuildState) :
    Pres st (processExternal retr dd st) ∧
    (Inv retr st → Inv retr (processExternal retr dd st)) := by
  unfold processExternal
  obtain ⟨p, i⟩ := foldl_retrieveOne_inv retr dd st.external st
  exact ⟨fun u hu => p u hu, fun hv => i hv⟩

theorem buildLoop_inv (retr : Retriever) (dd : Draft) :
    ∀ (fuel : Nat) {st st' : BuildState},
    buildLoop fuel retr dd st = some st' →
    Pres st st' ∧ (Inv retr st → Inv retr st') := by
  intro fuel
  induction fuel with
  | zero =>
    intro st st' h
    unfold buildLoop at h
    split at h
    · rw [(Option.some.inj h).symm]; exact ⟨pres_refl st, id⟩
    split at h
    · rw [(Option.some.inj h).symm]; exact ⟨pres_refl st, id⟩
    · cases h
  | succ f ih =>
    intro st st' h
    unfold buildLoop at h
    split at h
    · rw [(Option.some.inj h).symm]; exact ⟨pres_refl st, id⟩
    split at h
    · rw [(Option.some.inj h).symm]; exact ⟨pres_refl st, id⟩
    split at h
    · cases h
    · rename_i st1 hpq
      obtain ⟨hd1, hc1, hr1, hi1⟩ := processQueue_inv retr f hpq
      have hpres1 : Pres st st1 := by
        intro u hu
        exact ⟨hr1 u hu, by rw [hd1]⟩
      split at h
      · rw [(Option.some.inj h).symm]
        exact ⟨hpres1, hi1⟩
      · obtain ⟨p2, i2⟩ := processExternal_inv retr dd st1
        obtain ⟨p3, i3⟩ := ih h
        exact ⟨pres_trans hpres1 (pres_trans p2 p3), fun hv => i3 (i2 (hi1 hv))⟩

theorem insertInputs_fields : ∀ (l : List (Uri × Res)) (st : BuildState),
    (insertInputs l st).calls = st.calls ∧ (insertInputs l st).err = st.err ∧
    (insertInputs l st).external = st.external := by
  intro l
  induction l with
  | nil => exact fun st => ⟨rfl, rfl, rfl⟩
  | cons p rest ih =>
    intro st
    unfold insertInputs
    split
    · exact ih st
    · exact ih _

theorem inv_insertInputs_init (retr : Retriever) (l : List (Uri × Res))
    (d : List (Uri × Json)) (r : List (Uri × Res))
    (a : List ((Uri × String) × Anchor)) :
    Inv retr (insertInputs l (initState d r a)) := by
  obtain ⟨hc, he, _⟩ := insertInputs_fields l (initState d r a)
  refine ⟨?_, ?_, ?_⟩
  · rw [hc]; exact List.nodup_nil
  · intro _ u hu
    rw [hc] at hu
    cases hu
  · intro u c hu _
    rw [hc] at hu
    cases hu

theorem mergeSpecs_inv (retr : Retriever) (specs : SpecTable) (st : BuildState) :
    Pres st (mergeSpecs specs st) ∧
    (Inv retr st → Inv retr (mergeSpecs specs st)) := by
  constructor
  · intro u hu
    exact ⟨alookup_foldl_ainsert_isSome _ hu, rfl⟩
  · intro ⟨h1, h2, h3⟩
    exact ⟨h1, fun herr u hu => alookup_foldl_ainsert_isSome _ (h2 herr u hu), h3⟩

theorem processResources_inv (fuel : Nat) (pairs : List (String × Res))
    (retr : Retriever) (dd : Draft) (specs : SpecTable)
    (d : List (Uri × Json)) (r : List (Uri × Res))
    (a : List ((Uri × String) × Anchor)) {st : BuildState}
    (h : processResources fuel pairs retr dd specs (initState d r a) = some st) :
    Inv retr st := by
  unfold processResources at h
  split at h
  · rw [(Option.some.inj h).symm]
    exact ⟨List.nodup_nil, fun _ u hu => absurd hu (by simp [initState]),
      fun u c hu _ => absurd hu (by simp [initState])⟩
  · rename_i parsed hn
    split at h
    · cases h
    · rename_i st2 hbl
      have hinv1 := inv_insertInputs_init retr (dedupByUri parsed.reverse) d r a
      have hinv2 := (buildLoop_inv retr dd fuel hbl).2 hinv1
      split at h
      · rw [(Option.some.inj h).symm]; exact hinv2
      · split at h
        · rw [(Option.some.inj h).symm]
          exact (mergeSpecs_inv retr specs st2).2 hinv2
        · rw [(Option.some.inj h).symm]; exact hinv2

/-- Empty meta-schema table used in concrete runs. -/
def emptySpecs : SpecTable := ⟨[], []⟩

/-- Stepping lemma for the outer loop: one iteration of buildLoop unfolded
into its queue-drain and retrieval phases. -/
theorem buildLoop_step (f : Nat) (r : Retriever) (d : Draft) {st st1 st' : BuildState}
    (h0 : st.err.isSome = false)
    (hne : (st.queue.isEmpty && st.external.isEmpty) = false)
    (h1 : processQueue f st = some st1)
    (h2 : st1.err.isSome = false)
    (h3 : buildLoop f r d (processExternal r d st1) = some st') :
    buildLoop (f + 1) r d st = some st' := by
  unfold buildLoop
  rw [if_neg (by simp [h0]), if_neg (by simp [hne])]
  simp only [h1]
  rw [if_neg (by simp [h2])]
  exact h3

/-- Termination case of the outer loop: an error-free state with empty queue
and empty external set is returned unchanged, whatever fuel remains. -/
theorem buildLoop_done (fuel : Nat) (r : Retriever) (d : Draft) {st : BuildState}
    (h0 : st.err.isSome = false)
    (he : (st.queue.isEmpty && st.external.isEmpty) = true) :
    buildLoop fuel r d st = some st := by
  cases fuel <;> unfold buildLoop <;> rw [if_neg (by simp [h0]), if_pos he]

/-- Introduction lemma for a successful build: parsed inputs, a finished loop,
no error, and no meta-schema flag give the builder's result directly. -/
theorem processResources_eq (fuel : Nat) (pairs : List (String × Res))
    (r : Retriever) (d : Draft) (specs : SpecTable) (st0 : BuildState)
    (parsed : List (Uri × Res)) {st2 : BuildState}
    (hn : normalizeInputs pairs = .ok parsed)
    (hbl : buildLoop fuel r d (insertInputs (dedupByUri parsed.reverse) st0) = some st2)
    (h2 : st2.err.isSome = false) (h3 : st2.refersMetaschemas = false) :
    processResources fuel pairs r d specs st0 = some st2 := by
  unfold processResources
  simp only [hn, hbl]
  rw [if_neg (by simp [h2]), if_neg (by simp [h3])]

/-- Retriever serving a two-document cycle of external references (the
circular-reference scenario of the source's own tests, shrunk to two
documents). -/
def cyc2Retriever : Retriever := fun u =>
  if u = ⟨"x", "1", none⟩ then .ok (.obj [("$ref", .str "x:2")])
  else if u = ⟨"x", "2", none⟩ then .ok (.obj [("$ref", .str "x:1")])
  else .error "not found"

/-- Input resource whose reference enters the two-document cycle. -/
def cyc2Input : List (String × Res) :=
  [("x:0", ⟨.draft202012, .obj [("$ref", .str "x:1")]⟩)]

/-- Interned input state of the concrete cycle build. -/
def cyc2S0 : BuildState :=
  BuildState.mk [((Uri.mk "x" "0" none), (Json.obj [("$ref", (Json.str "x:1"))]))] [((Uri.mk "x" "0" none), (Res.mk Draft.draft202012 (Json.obj [("$ref", (Json.str "x:1"))])))] [] [((Uri.mk "x" "0" none), (Res.mk Draft.draft202012 (Json.obj [("$ref", (Json.str "x:1"))])))] [] [] false [] none

/-- State after the first queue drain of the cycle build. -/
def cyc2A1 : BuildState :=
  BuildState.mk [((Uri.mk "x" "0" none), (Json.obj [("$ref", (Json.str "x:1"))]))] [((Uri.mk "x" "0" none), (Res.mk Draft.draft202012 (Json.obj [("$ref", (Json.str "x:1"))])))] [] [] [("x:0", "x:1")] [(Uri.mk "x" "1" none)] false [] none

/-- State after the first retrieval of the cycle build. -/
def cyc2B1 : BuildState :=
  BuildState.mk [((Uri.mk "x" "1" none), (Json.obj [("$ref", (Json.str "x:2"))])), ((Uri.mk "x" "0" none), (Json.obj [("$ref", (Json.str "x:1"))]))] [((Uri.mk "x" "1" none), (Res.mk Draft.draft202012 (Json.obj [("$ref", (Json.str "x:2"))]))), ((Uri.mk "x" "0" none), (Res.mk Draft.draft202012 (Json.obj [("$ref", (Json.str "x:1"))])))] [] [((Uri.mk "x" "1" none), (Res.mk Draft.draft202012 (Json.obj [("$ref", (Json.str "x:2"))])))] [("x:0", "x:1")] [] false [(Uri.mk "x" "1" none)] none

/-- State after the second queue drain of the cycle build. -/
def cyc2A2 : BuildState :=
  BuildState.mk [((Uri.mk "x" "1" none), (Json.obj [("$ref", (Json.str "x:2"))])), ((Uri.mk "x" "0" none), (Json.obj [("$ref", (Json.str "x:1"))]))] [((Uri.mk "x" "1" none), (Res.mk Draft.draft202012 (Json.obj [("$ref", (Json.str "x:2"))]))), ((Uri.mk "x" "0" none), (Res.mk Draft.draft202012 (Json.obj [("$ref", (Json.str "x:1"))])))] [] [] [("x:1", "x:2"), ("x:0", "x:1")] [(Uri.mk "x" "2" none)] false [(Uri.mk "x" "1" none)] none

/-- State after the second retrieval of the cycle build. -/
def cyc2B2 : BuildState :=
  BuildState.mk [((Uri.mk "x" "2" none), (Json.obj [("$ref", (Json.str "x:1"))])), ((Uri.mk "x" "1" none), (Json.obj [("$ref", (Json.str "x:2"))])), ((Uri.mk "x" "0" none), (Json.obj [("$ref", (Json.str "x:1"))]))] [((Uri.mk "x" "2" none), (Res.mk Draft.draft202012 (Json.obj [("$ref", (Json.str "x:1"))]))), ((Uri.mk "x" "1" none), (Res.mk Draft.draft202012 (Json.obj [("$ref", (Json.str "x:2"))]))), ((Uri.mk "x" "0" none), (Res.mk Draft.draft202012 (Json.obj [("$ref", (Json.str "x:1"))])))] [] [((Uri.mk "x" "2" none), (Res.mk Draft.draft202012 (Json.obj [("$ref", (Json.str "x:1"))])))] [("x:1", "x:2"), ("x:0", "x:1")] [] false [(Uri.mk "x" "1" none), (Uri.mk "x" "2" none)] none

/-- State after the third queue drain of the cycle build: the cycle closes,
the back-reference is already interned. -/
def cyc2A3 : BuildState :=
  BuildState.mk [((Uri.mk "x" "2" none), (Json.obj [("$ref", (Json.str "x:1"))])), ((Uri.mk "x" "1" none), (Json.obj [("$ref", (Json.str "x:2"))])), ((Uri.mk "x" "0" none), (Json.obj [("$ref", (Json.str "x:1"))]))] [((Uri.mk "x" "2" none), (Res.mk Draft.draft202012 (Json.obj [("$ref", (Json.str "x:1"))]))), ((Uri.mk "x" "1" none), (Res.mk Draft.draft202012 (Json.obj [("$ref", (Json.str "x:2"))]))), ((Uri.mk "x" "0" none), (Res.mk Draft.draft202012 (Json.obj [("$ref", (Json.str "x:1"))])))] [] [] [("x:2", "x:1"), ("x:1", "x:2"), ("x:0", "x:1")] [(Uri.mk "x" "1" none)] false [(Uri.mk "x" "1" none), (Uri.mk "x" "2" none)] none

/-- Final state of the concrete cycle build: queue and external set empty, no
error, exactly one retriever call per distinct document URI of the cycle. -/
def cyc2Final : BuildState :=
  BuildState.mk [((Uri.mk "x" "2" none), (Json.obj [("$ref", (Json.str "x:1"))])), ((Uri.mk "x" "1" none), (Json.obj [("$ref", (Json.str "x:2"))])), ((Uri.mk "x" "0" none), (Json.obj [("$ref", (Json.str "x:1"))]))] [((Uri.mk "x" "2" none), (Res.mk Draft.draft202012 (Json.obj [("$ref", (Json.str "x:1"))]))), ((Uri.mk "x" "1" none), (Res.mk Draft.draft202012 (Json.obj [("$ref", (Json.str "x:2"))]))), ((Uri.mk "x" "0" none), (Res.mk Draft.draft202012 (Json.obj [("$ref", (Json.str "x:1"))])))] [] [] [("x:2", "x:1"), ("x:1", "x:2"), ("x:0", "x:1")] [] false [(Uri.mk "x" "1" none), (Uri.mk "x" "2" none)] none

theorem cyc2_drain1 : processQueue 4 cyc2S0 = some cyc2A1 := rfl

theorem cyc2_fetch1 : processExternal cyc2Retriever defaultDraft cyc2A1 = cyc2B1 := rfl

theorem cyc2_drain2 : processQueue 3 cyc2B1 = some cyc2A2 := rfl

theorem cyc2_fetch2 : processExternal cyc2Retriever defaultDraft cyc2A2 = cyc2B2 := rfl

theorem cyc2_drain3 : processQueue 2 cyc2B2 = some cyc2A3 := rfl

theorem cyc2_fetch3 : processExternal cyc2Retriever defaultDraft cyc2A3 = cyc2Final := rfl

/-- Full run of the concrete cycle build, chained iteration by iteration. -/
theorem cyc2_run :
    processResources 5 cyc2Input cyc2Retriever defaultDraft emptySpecs
      (initState [] [] []) = some cyc2Final := by
  have hb2 : buildLoop 2 cyc2Retriever defaultDraft cyc2Final = some cyc2Final :=
    buildLoop_done 2 cyc2Retriever defaultDraft rfl rfl
  have hb3 : buildLoop 3 cyc2Retriever defaultDraft cyc2B2 = some cyc2Final :=
    buildLoop_step 2 cyc2Retriever defaultDraft rfl rfl cyc2_drain3 rfl
      (cyc2_fetch3 ▸ hb2)
  have hb4 : buildLoop 4 cyc2Retriever defaultDraft cyc2B1 = some cyc2Final :=
    buildLoop_step 3 cyc2Retriever defaultDraft rfl rfl cyc2_drain2 rfl
      (cyc2_fetch2 ▸ hb3)
  have hb5 : buildLoop 5 cyc2Retriever defaultDraft cyc2S0 = some cyc2Final :=
    buildLoop_step 4 cyc2Retriever defaultDraft rfl rfl cyc2_drain1 rfl
      (cyc2_fetch1 ▸ hb4)
  exact processResources_eq 5 cyc2Input cyc2Retriever defaultDraft emptySpecs
    (initState [] [] [])
    [((Uri.mk "x" "0" none), (Res.mk Draft.draft202012 (Json.obj [("$ref", (Json.str "x:1"))])))]
    rfl hb5 rfl rfl

/-- Claim C1: the builder invokes the retriever at most once per distinct
fragmentless document URI in every build (the recorded call trace has no
duplicates), and the concrete two-document reference cycle terminates
successfully after exactly two retriever calls, one per distinct document URI
of the cycle. -/
theorem claim1 :
    (∀ (fuel : Nat) (pairs : List (String × Res)) (retriever : Retriever)
       (dd : Draft) (specs : SpecTable) (d : List (Uri × Json))
       (r : List (Uri × Res)) (a : List ((Uri × String) × Anchor))
       (st : BuildState),
       processResources fuel pairs retriever dd specs (initState d r a) = some st →
       st.calls.Nodup) ∧
    (processResources 5 cyc2Input cyc2Retriever defaultDraft emptySpecs
        (initState [] [] []) = some cyc2Final ∧
      cyc2Final.err = none ∧
      cyc2Final.calls = [⟨"x", "1", none⟩, ⟨"x", "2", none⟩]) := by
  constructor
  · intro fuel pairs retriever dd specs d r a st h
    exact (processResources_inv fuel pairs retriever dd specs d r a h).1
  · exact ⟨cyc2_run, rfl, rfl⟩

/-- Witness for C1: the general no-duplicate-calls theorem applied to the
concrete cycle build. -/
theorem claim1_witness : cyc2Final.calls.Nodup :=
  claim1.1 5 cyc2Input cyc2Retriever defaultDraft emptySpecs [] [] []
    cyc2Final cyc2_run

/-- Claim C3: whenever the retriever fails on a fragmentless document URI the
discovery loop required (that is, one the build actually called), the build's
recorded error is exactly Unretrievable with that URI and the retriever's
cause, and the builder returns that error instead of a registry. -/
theorem claim3 (fuel : Nat) (pairs : List (String × Res)) (retriever : Retriever)
    (dd : Draft) (specs : SpecTable) (st : BuildState) (u : Uri) (c : String)
    (hrun : processResources fuel pairs retriever dd specs (initState [] [] []) = some st)
    (hmem : u ∈ st.calls) (hfail : retriever u = Except.error c) :
    st.err = some (.unretrievable u.toStr c) ∧
    tryFromResources fuel pairs retriever dd specs =
      some (Except.error (.unretrievable u.toStr c)) := by
  have hinv := processResources_inv fuel pairs retriever dd specs [] [] [] hrun
  have herr := hinv.2.2 u c hmem hfail
  refine ⟨herr, ?_⟩
  unfold tryFromResources
  rw [hrun]
  simp [toResult, herr]

/-- Retriever refusing everything with the default retriever's message. -/
def failRetriever : Retriever :=
  fun _ => .error "Default retriever does not fetch resources"

/-- Input with a single unretrievable external reference. -/
def failInput : List (String × Res) :=
  [("x:f0", ⟨.draft202012, .obj [("$ref", .str "x:gone")]⟩)]

/-- Final state of the failing concrete build. -/
def failFinal : BuildState :=
  (processResources 20 failInput failRetriever defaultDraft emptySpecs
    (initState [] [] [])).getD (initState [] [] [])

/-- Witness for C3: the unretrievable-propagation theorem applied to the
concrete failing build. -/
theorem claim3_witness :
    failFinal.err = some (.unretrievable (Uri.toStr ⟨"x", "gone", none⟩)
      "Default retriever does not fetch resources") ∧
    tryFromResources 20 failInput failRetriever defaultDraft emptySpecs =
      some (Except.error (.unretrievable (Uri.toStr ⟨"x", "gone", none⟩)
        "Default retriever does not fetch resources")) :=
  claim3 20 failInput failRetriever defaultDraft emptySpecs failFinal
    ⟨"x", "gone", none⟩ "Default retriever does not fetch resources"
    rfl (by decide) rfl

/-- Input under a urn base whose only reference is external. -/
def urnInput : List (String × Res) :=
  [("urn:example:s", ⟨.draft202012, .obj [("$ref", .str "http://ex/s2")]⟩)]

/-- Claim C6: collect_external_resources returns immediately on a urn base,
leaving the state untouched (no external URI recorded, no flag set), and the
concrete urn-based build succeeds without a single retriever call even under a
retriever that refuses everything. -/
theorem claim6 :
    (∀ (fuel : Nat) (base : Uri) (contents : Json) (st : BuildState),
      st.err = none → base.scheme = "urn" →
      collectExternal fuel base contents st = some st) ∧
    ((processResources 20 urnInput (fun _ => Except.error "unreachable")
        defaultDraft emptySpecs (initState [] [] [])).map
          (fun st => (st.err, st.calls))
      = some (none, [])) := by
  constructor
  · intro fuel base contents st herr hurn
    rw [collectExternal.eq_def, if_neg (by simp [herr]), if_pos hurn]
  · rfl

/-- Witness for C6: the urn short-circuit applied at a concrete urn base. -/
theorem claim6_witness :
    collectExternal 3 ⟨"urn", "example:s", none⟩
      (.obj [("$ref", .str "http://ex/s2")]) (initState [] [] [])
      = some (initState [] [] []) :=
  claim6.1 3 ⟨"urn", "example:s", none⟩ (.obj [("$ref", .str "http://ex/s2")])
    (initState [] [] []) rfl rfl

/-- Claim C9: anchor lookup panics (modelled as none) when the direct anchor
lookup misses and the URI is not a key of the resource map, as witnessed on a
concrete registry; under the precondition that the URI is a registered
resource key, the lookup never panics. -/
theorem claim9 :
    Registry.anchor ⟨[], [], []⟩ ⟨"x", "a", none⟩ "n" = none ∧
    (∀ (reg : Registry) (u : Uri) (n : String) (res : Res),
      alookup reg.resources u = some res → reg.anchor u n ≠ none) := by
  constructor
  · rfl
  · intro reg u n res hres
    unfold Registry.anchor
    cases halook : alookup reg.anchors (u, n) with
    | some a => simp
    | none =>
      rw [hres]
      cases hid : idOf res.draft res.contents with
      | none => simp [hid]
      | some id =>
        cases hp : parseUri id with
        | error e => simp [hid, hp]
        | ok v =>
          cases ha2 : alookup reg.anchors (v, n) with
          | some a => simp [hid, hp, ha2]
          | none => simp [hid, hp, ha2]

/-- Witness for C9: the no-panic half applied to a concrete registered URI. -/
theorem claim9_witness :
    Registry.anchor ⟨[], [(⟨"x", "a", none⟩, ⟨.draft202012, .obj []⟩)], []⟩
      ⟨"x", "a", none⟩ "n" ≠ none :=
  claim9.2 ⟨[], [(⟨"x", "a", none⟩, ⟨.draft202012, .obj []⟩)], []⟩
    ⟨"x", "a", none⟩ "n" ⟨.draft202012, .obj []⟩ rfl

/-- Claim C5: anchor lookup on a registered URI first consults the anchor map
under the given URI and name; on a miss it retries under the parsed id of the
stored resource when one is declared; and when both lookups miss it reports
InvalidAnchor exactly when the name contains a slash and NoSuchAnchor
otherwise. -/
theorem claim5 (reg : Registry) (u : Uri) (n : String) (res : Res)
    (hres : alookup reg.resources u = some res) :
    (∀ a, alookup reg.anchors (u, n) = some a →
      reg.anchor u n = some (.ok a)) ∧
    (alookup reg.anchors (u, n) = none →
      ∀ id v a, idOf res.draft res.contents = some id → parseUri id = .ok v →
        alookup reg.anchors (v, n) = some a →
        reg.anchor u n = some (.ok a)) ∧
    (alookup reg.anchors (u, n) = none →
      (idOf res.draft res.contents = none ∨
        ∃ id v, idOf res.draft res.contents = some id ∧ parseUri id = .ok v ∧
          alookup reg.anchors (v, n) = none) →
      reg.anchor u n = some (.error
        (if strContains n '/' then .invalidAnchor n else .noSuchAnchor n))) := by
  refine ⟨?_, ?_, ?_⟩
  · intro a ha
    unfold Registry.anchor
    rw [ha]
  · intro hmiss id v a hid hp ha
    unfold Registry.anchor
    rw [hmiss, hres]
    simp only [hid, hp, ha]
  · intro hmiss hcase
    unfold Registry.anchor
    rw [hmiss, hres]
    rcases hcase with hid | ⟨id, v, hid, hp, ha⟩
    · simp only [hid]
    · simp only [hid, hp, ha]

/-- Witness for C5: the double-miss dichotomy applied to a concrete registry
and a slash-containing anchor name. -/
theorem claim5_witness :
    Registry.anchor ⟨[], [(⟨"x", "a", none⟩, ⟨.draft202012, .obj []⟩)], []⟩
      ⟨"x", "a", none⟩ "foo/bar" = some (.error (.invalidAnchor "foo/bar")) := by
  have h := (claim5 ⟨[], [(⟨"x", "a", none⟩, ⟨.draft202012, .obj []⟩)], []⟩
    ⟨"x", "a", none⟩ "foo/bar" ⟨.draft202012, .obj []⟩ rfl).2.2 rfl (Or.inl rfl)
  rw [h]
  rfl

/-- Inputs whose second resource declares an id aliasing the first URI. -/
def aliasInput : List (String × Res) :=
  [("x:a", ⟨.draft202012, .obj [("title", .str "one")]⟩),
   ("x:b", ⟨.draft202012, .obj [("$id", .str "x:a")]⟩)]

/-- Counterexample for C4: after a fresh build over aliasInput the resource
stored under the first URI is the later aliasing resource, not the
first-written one, so the alias path of the discovery loop does overwrite. -/
theorem claim4_cex :
    (processResources 20 aliasInput failRetriever defaultDraft emptySpecs
        (initState [] [] [])).map
      (fun st => (st.err, (alookup st.resources ⟨"x", "a", none⟩).map
        (fun q => q.contents)))
      = some (none, some (.obj [("$id", .str "x:a")])) ∧
    Json.obj [("$id", .str "x:a")] ≠ Json.obj [("title", .str "one")] := by
  constructor
  · rfl
  · intro hcontra
    injection hcontra with h1
    injection h1 with h2 h3
    injection h2 with h4 h5
    exact absurd h4 (by decide)

/-- Helper for C4: the resource map of a drain-step continuation is exactly
the one it was given. -/
theorem drainCont_resources (fuel : Nat) (base' : Uri) (res : Res)
    {st1 st' : BuildState} (h : drainCont fuel base' res st1 = some st') :
    st'.resources = st1.resources := by
  unfold drainCont at h
  split at h
  · cases h
  · rename_i st3 hce
    have hfp := collect_effects _ _ _ _ _ hce
    split at h <;> rw [(Option.some.inj h).symm] <;> exact hfp.2.1

/-- Claim C4 (amended): when the front queue element declares an id that
resolves to a URI, the drain step maps that URI to this resource in the
resource map, overwriting whatever was stored there before (last-write-wins on
the alias path, not first-write-wins). -/
theorem claim4 (fuel : Nat) (st : BuildState) (base : Uri) (res : Res)
    (rest : List (Uri × Res)) (id : String) (b : Uri) {st' : BuildState}
    (hq : st.queue = (base, res) :: rest)
    (hid : idOf res.draft res.contents = some id)
    (hres : resolveAgainst base id = .ok b)
    (h : drainStep fuel st = some st') :
    alookup st'.resources b = some res := by
  unfold drainStep at h
  rw [hq] at h
  simp only [hid, hres] at h
  rw [drainCont_resources fuel b res h]
  exact alookup_ainsert_self b res st.resources

/-- Concrete state whose queue front aliases an already-mapped URI. -/
def aliasState : BuildState :=
  { initState []
      [(⟨"x", "a", none⟩, ⟨.draft202012, .obj [("title", .str "one")]⟩)] [] with
    queue := [(⟨"x", "b", none⟩, ⟨.draft202012, .obj [("$id", .str "x:a")]⟩)] }

/-- Result of the concrete overwriting drain step. -/
def aliasStepFinal : BuildState :=
  (drainStep 5 aliasState).getD aliasState

/-- Witness for C4 (amended): the overwrite exhibited on a concrete state
where the aliased URI was already mapped to a different resource. -/
theorem claim4_witness :
    alookup aliasStepFinal.resources ⟨"x", "a", none⟩ =
      some ⟨.draft202012, .obj [("$id", .str "x:a")]⟩ :=
  claim4 5 aliasState ⟨"x", "b", none⟩ ⟨.draft202012, .obj [("$id", .str "x:a")]⟩
    [] "x:a" ⟨"x", "a", none⟩ rfl rfl rfl rfl

/-- Input whose base URI sits under the http draft prefix while its reference
carries no meta-schema prefix. -/
def draftBaseInput : List (String × Res) :=
  [("http://json-schema.org/draft-07/x",
    ⟨.draft202012, .obj [("$ref", .str "x:other")]⟩)]

/-- Retriever serving that reference. -/
def draftBaseRetriever : Retriever := fun u =>
  if u = ⟨"x", "other", none⟩ then .ok (.obj []) else .error "no"

/-- Interned input state of the draft-prefixed-base build. -/
def dbS0 : BuildState :=
  BuildState.mk [((Uri.mk "http" "//json-schema.org/draft-07/x" none), (Json.obj [("$ref", (Json.str "x:other"))]))] [((Uri.mk "http" "//json-schema.org/draft-07/x" none), (Res.mk Draft.draft202012 (Json.obj [("$ref", (Json.str "x:other"))])))] [] [((Uri.mk "http" "//json-schema.org/draft-07/x" none), (Res.mk Draft.draft202012 (Json.obj [("$ref", (Json.str "x:other"))])))] [] [] false [] none

/-- State after the first queue drain of the draft-prefixed-base build: the
reference has been collected into the external set. -/
def dbA1 : BuildState :=
  BuildState.mk [((Uri.mk "http" "//json-schema.org/draft-07/x" none), (Json.obj [("$ref", (Json.str "x:other"))]))] [((Uri.mk "http" "//json-schema.org/draft-07/x" none), (Res.mk Draft.draft202012 (Json.obj [("$ref", (Json.str "x:other"))])))] [] [] [("http://json-schema.org/draft-07/x", "x:other")] [(Uri.mk "x" "other" none)] false [] none

/-- State after the retrieval of the draft-prefixed-base build. -/
def dbB1 : BuildState :=
  BuildState.mk [((Uri.mk "x" "other" none), (Json.obj [])), ((Uri.mk "http" "//json-schema.org/draft-07/x" none), (Json.obj [("$ref", (Json.str "x:other"))]))] [((Uri.mk "x" "other" none), (Res.mk Draft.draft202012 (Json.obj []))), ((Uri.mk "http" "//json-schema.org/draft-07/x" none), (Res.mk Draft.draft202012 (Json.obj [("$ref", (Json.str "x:other"))])))] [] [((Uri.mk "x" "other" none), (Res.mk Draft.draft202012 (Json.obj [])))] [("http://json-schema.org/draft-07/x", "x:other")] [] false [(Uri.mk "x" "other" none)] none

/-- Final state of the draft-prefixed-base build. -/
def dbFinal : BuildState :=
  BuildState.mk [((Uri.mk "x" "other" none), (Json.obj [])), ((Uri.mk "http" "//json-schema.org/draft-07/x" none), (Json.obj [("$ref", (Json.str "x:other"))]))] [((Uri.mk "x" "other" none), (Res.mk Draft.draft202012 (Json.obj []))), ((Uri.mk "http" "//json-schema.org/draft-07/x" none), (Res.mk Draft.draft202012 (Json.obj [("$ref", (Json.str "x:other"))])))] [] [] [("http://json-schema.org/draft-07/x", "x:other")] [] false [(Uri.mk "x" "other" none)] none

theorem db_drain1 : processQueue 3 dbS0 = some dbA1 := rfl

theorem db_fetch1 : processExternal draftBaseRetriever defaultDraft dbA1 = dbB1 := rfl

theorem db_drain2 : processQueue 2 dbB1 = some dbFinal := rfl

theorem db_fetch2 : processExternal draftBaseRetriever defaultDraft dbFinal = dbFinal := rfl

/-- Full run of the draft-prefixed-base build, chained iteration by
iteration. -/
theorem db_run :
    processResources 4 draftBaseInput draftBaseRetriever defaultDraft
      emptySpecs (initState [] [] []) = some dbFinal := by
  have hb2 : buildLoop 2 draftBaseRetriever defaultDraft dbFinal = some dbFinal :=
    buildLoop_done 2 draftBaseRetriever defaultDraft rfl rfl
  have hb3 : buildLoop 3 draftBaseRetriever defaultDraft dbB1 = some dbFinal :=
    buildLoop_step 2 draftBaseRetriever defaultDraft rfl rfl db_drain2 rfl
      (db_fetch2 ▸ hb2)
  have hb4 : buildLoop 4 draftBaseRetriever defaultDraft dbS0 = some dbFinal :=
    buildLoop_step 3 draftBaseRetriever defaultDraft rfl rfl db_drain1 rfl
      (db_fetch1 ▸ hb3)
  exact processResources_eq 4 draftBaseInput draftBaseRetriever defaultDraft
    emptySpecs (initState [] [] [])
    [((Uri.mk "http" "//json-schema.org/draft-07/x" none), (Res.mk Draft.draft202012 (Json.obj [("$ref", (Json.str "x:other"))])))]
    rfl hb4 rfl rfl

/-- Counterexample for C7: a dollar-ref encountered while the base URI begins
with the http meta-schema prefix is collected and retrieved anyway (one
retriever call is made and the flag stays unset), because the source checks
the base URI only against the https prefix. -/
theorem claim7_cex :
    (processResources 4 draftBaseInput draftBaseRetriever defaultDraft
        emptySpecs (initState [] [] [])).map
      (fun st => (st.err, st.calls, st.refersMetaschemas))
      = some (none, [⟨"x", "other", none⟩], false) := by
  rw [db_run]
  rfl

/-- Claim C7 (amended): a reference is skipped, with the flag set exactly for
a dollar-ref, when the reference itself begins with one of the two well-known
meta-schema prefixes or the base URI begins with the https meta-schema prefix
specifically; and on a successful build that observed a meta-schema reference,
every resource and anchor of the meta-schema table is present in the final
maps. -/
theorem claim7 :
    (∀ (recur : Json → BuildState → Option BuildState) (base : Uri)
       (contents : Json) (r : String) (isRef : Bool) (st : BuildState),
       st.err = none →
       (strStartsWith r metaHttps || strStartsWith r metaHttp
         || strStartsWith (Uri.toStr base) metaHttps) = true →
       onReferenceWith recur base contents r isRef st =
         some (if isRef then { st with refersMetaschemas := true } else st)) ∧
    (∀ (fuel : Nat) (pairs : List (String × Res)) (retr : Retriever)
       (dd : Draft) (specs : SpecTable) (d : List (Uri × Json))
       (r0 : List (Uri × Res)) (a0 : List ((Uri × String) × Anchor))
       (st : BuildState),
       processResources fuel pairs retr dd specs (initState d r0 a0) = some st →
       st.err = none → st.refersMetaschemas = true →
       ((specs.resources.map Prod.fst).Nodup →
         ∀ k v, (k, v) ∈ specs.resources → alookup st.resources k = some v) ∧
       ((specs.anchors.map Prod.fst).Nodup →
         ∀ k v, (k, v) ∈ specs.anchors → alookup st.anchors k = some v)) := by
  constructor
  · intro recur base contents r isRef st herr hmeta
    unfold onReferenceWith
    rw [if_neg (by simp [herr]), if_pos hmeta]
  · intro fuel pairs retr dd specs d r0 a0 st h herr hflag
    unfold processResources at h
    split at h
    · rw [(Option.some.inj h).symm] at herr
      simp at herr
    · rename_i parsed hn
      split at h
      · cases h
      · rename_i st2 hbl
        split at h
        · rename_i hsome
          rw [(Option.some.inj h).symm] at herr
          rw [herr] at hsome
          simp at hsome
        · split at h
          · rw [(Option.some.inj h).symm]
            constructor
            · intro hnd k v hkv
              exact alookup_foldl_ainsert_of_mem _ hnd hkv
            · intro hnd k v hkv
              exact alookup_foldl_ainsert_of_mem _ hnd hkv
          · rename_i hflag2
            rw [(Option.some.inj h).symm] at hflag
            exact absurd hflag hflag2

/-- Introduction lemma for a successful build that observed a meta-schema
reference: the result is the loop's final state with the table merged in. -/
theorem processResources_eq_merge (fuel : Nat) (pairs : List (String × Res))
    (r : Retriever) (d : Draft) (specs : SpecTable) (st0 : BuildState)
    (parsed : List (Uri × Res)) {st2 : BuildState}
    (hn : normalizeInputs pairs = .ok parsed)
    (hbl : buildLoop fuel r d (insertInputs (dedupByUri parsed.reverse) st0) = some st2)
    (h2 : st2.err.isSome = false) (h3 : st2.refersMetaschemas = true) :
    processResources fuel pairs r d specs st0 = some (mergeSpecs specs st2) := by
  unfold processResources
  simp only [hn, hbl]
  rw [if_neg (by simp [h2]), if_pos h3]

/-- One-entry meta-schema table for the concrete injection run. -/
def oneSpec : SpecTable :=
  ⟨[(⟨"y", "meta", none⟩, ⟨.draft202012, .obj []⟩)],
   [((⟨"y", "meta", none⟩, "top"), ⟨"top", ⟨.draft202012, .obj []⟩⟩)]⟩

/-- Input referencing the 2020-12 meta-schema. -/
def msInput : List (String × Res) :=
  [("x:m", ⟨.draft202012,
    .obj [("$ref", .str "https://json-schema.org/draft/2020-12/schema")]⟩)]

/-- Interned input state of the meta-schema-referencing build. -/
def msS0 : BuildState :=
  BuildState.mk [((Uri.mk "x" "m" none), (Json.obj [("$ref", (Json.str "https://json-schema.org/draft/2020-12/schema"))]))] [((Uri.mk "x" "m" none), (Res.mk Draft.draft202012 (Json.obj [("$ref", (Json.str "https://json-schema.org/draft/2020-12/schema"))])))] [] [((Uri.mk "x" "m" none), (Res.mk Draft.draft202012 (Json.obj [("$ref", (Json.str "https://json-schema.org/draft/2020-12/schema"))])))] [] [] false [] none

/-- State after the single queue drain of the meta-schema build: the skip set
the flag and nothing became external. -/
def msLoopFinal : BuildState :=
  BuildState.mk [((Uri.mk "x" "m" none), (Json.obj [("$ref", (Json.str "https://json-schema.org/draft/2020-12/schema"))]))] [((Uri.mk "x" "m" none), (Res.mk Draft.draft202012 (Json.obj [("$ref", (Json.str "https://json-schema.org/draft/2020-12/schema"))])))] [] [] [] [] true [] none

/-- Final state (after injection) of the meta-schema-referencing build. -/
def msFinal : BuildState := mergeSpecs oneSpec msLoopFinal

theorem ms_drain1 : processQueue 3 msS0 = some msLoopFinal := rfl

theorem ms_fetch1 : processExternal failRetriever defaultDraft msLoopFinal = msLoopFinal := rfl

/-- Full run of the meta-schema-referencing build. -/
theorem ms_run :
    processResources 4 msInput failRetriever defaultDraft oneSpec
      (initState [] [] []) = some msFinal := by
  have hb3 : buildLoop 3 failRetriever defaultDraft msLoopFinal = some msLoopFinal :=
    buildLoop_done 3 failRetriever defaultDraft rfl rfl
  have hb4 : buildLoop 4 failRetriever defaultDraft msS0 = some msLoopFinal :=
    buildLoop_step 3 failRetriever defaultDraft rfl rfl ms_drain1 rfl
      (ms_fetch1 ▸ hb3)
  exact processResources_eq_merge 4 msInput failRetriever defaultDraft oneSpec
    (initState [] [] [])
    [((Uri.mk "x" "m" none), (Res.mk Draft.draft202012 (Json.obj [("$ref", (Json.str "https://json-schema.org/draft/2020-12/schema"))])))]
    rfl hb4 rfl rfl

/-- Witness for C7 (amended): the skip-and-flag behavior at a concrete
meta-schema reference and the injection of a concrete table entry. -/
theorem claim7_witness :
    onReferenceWith (fun _ s => some s) ⟨"x", "m", none⟩ (.obj [])
        "https://json-schema.org/draft/2020-12/schema" true (initState [] [] [])
      = some { initState [] [] [] with refersMetaschemas := true } ∧
    alookup msFinal.resources ⟨"y", "meta", none⟩ =
      some ⟨.draft202012, .obj []⟩ ∧
    alookup msFinal.anchors (⟨"y", "meta", none⟩, "top") =
      some ⟨"top", ⟨.draft202012, .obj []⟩⟩ := by
  refine ⟨?_, ?_, ?_⟩
  · exact claim7.1 (fun _ s => some s) ⟨"x", "m", none⟩ (.obj [])
      "https://json-schema.org/draft/2020-12/schema" true (initState [] [] [])
      rfl (by decide)
  · exact (claim7.2 4 msInput failRetriever defaultDraft oneSpec [] [] []
      msFinal ms_run rfl rfl).1 (by decide) ⟨"y", "meta", none⟩
      ⟨.draft202012, .obj []⟩ (List.mem_singleton.mpr rfl)
  · exact (claim7.2 4 msInput failRetriever defaultDraft oneSpec [] [] []
      msFinal ms_run rfl rfl).2 (by decide) (⟨"y", "meta", none⟩, "top")
      ⟨"top", ⟨.draft202012, .obj []⟩⟩ (List.mem_singleton.mpr rfl)

theorem dedupAux_subset : ∀ (l : List (Uri × Res)) (last p : Uri × Res),
    p ∈ dedupAux last l → p ∈ l := by
  intro l
  induction l with
  | nil => intro last p hp; cases hp
  | cons y rest ih =>
    intro last p hp
    unfold dedupAux at hp
    split at hp
    · exact List.mem_cons_of_mem y (ih last p hp)
    · rcases List.mem_cons.mp hp with h | h
      · exact h ▸ List.mem_cons_self y rest
      · exact List.mem_cons_of_mem y (ih y p h)

theorem dedupByUri_subset {l : List (Uri × Res)} {p : Uri × Res}
    (hp : p ∈ dedupByUri l) : p ∈ l := by
  cases l with
  | nil => cases hp
  | cons x rest =>
    unfold dedupByUri at hp
    rcases List.mem_cons.mp hp with h | h
    · exact h ▸ List.mem_cons_self x rest
    · exact List.mem_cons_of_mem x (dedupAux_subset rest x p h)

theorem insertInputs_occupied : ∀ (l : List (Uri × Res)) (st : BuildState),
    (∀ p ∈ l, (alookup st.documents p.1).isSome) → insertInputs l st = st := by
  intro l
  induction l with
  | nil => intro st _; rfl
  | cons q rest ih =>
    intro st hall
    obtain ⟨qu, qr⟩ := q
    have hq := hall (qu, qr) (List.mem_cons_self (qu, qr) rest)
    obtain ⟨dv, hd⟩ := Option.isSome_iff_exists.mp hq
    unfold insertInputs
    simp only [hd]
    exact ih st (fun p hp => hall p (List.mem_cons_of_mem (qu, qr) hp))

/-- Claim C10: adding resources to an existing registry under URIs whose
fragmentless forms are already document keys silently discards the new
resources: the result is the original registry unchanged (documents,
resources, anchors intact), nothing is enqueued, the retriever is never
called, and no error is reported. -/
theorem claim10 (fuel : Nat) (reg : Registry) (pairs : List (String × Res))
    (retr : Retriever) (dd : Draft) (specs : SpecTable)
    (parsed : List (Uri × Res))
    (hn : normalizeInputs pairs = .ok parsed)
    (hall : ∀ p ∈ parsed, (alookup reg.documents p.1).isSome) :
    reg.tryWithResourcesAndRetriever fuel pairs retr dd specs =
      some (.ok reg) ∧
    processResources fuel pairs retr dd specs
        (initState reg.documents reg.resources reg.anchors)
      = some (initState reg.documents reg.resources reg.anchors) := by
  have hid : insertInputs (dedupByUri parsed.reverse)
      (initState reg.documents reg.resources reg.anchors)
      = initState reg.documents reg.resources reg.anchors :=
    insertInputs_occupied _ _ (fun p hp =>
      hall p (List.mem_reverse.mp (dedupByUri_subset hp)))
  have hrun : processResources fuel pairs retr dd specs
      (initState reg.documents reg.resources reg.anchors)
      = some (initState reg.documents reg.resources reg.anchors) := by
    refine processResources_eq fuel pairs retr dd specs _ parsed hn ?_ rfl rfl
    rw [hid]
    exact buildLoop_done fuel retr dd rfl rfl
  refine ⟨?_, hrun⟩
  unfold Registry.tryWithResourcesAndRetriever
  rw [hrun]
  rfl

/-- Concrete registry with an occupied document key. -/
def occReg : Registry :=
  ⟨[(⟨"x", "a", none⟩, .obj [("old", .null)])],
   [(⟨"x", "a", none⟩, ⟨.draft202012, .obj [("old", .null)]⟩)], []⟩

/-- Witness for C10: the silent-discard theorem applied to a concrete registry
and a concrete duplicate resource under the occupied URI. -/
theorem claim10_witness :
    occReg.tryWithResourcesAndRetriever 7
      [("x:a", ⟨.draft202012, .obj [("new", .null)]⟩)] failRetriever
      defaultDraft emptySpecs = some (.ok occReg) :=
  (claim10 7 occReg [("x:a", ⟨.draft202012, .obj [("new", .null)]⟩)]
    failRetriever defaultDraft emptySpecs
    [(⟨"x", "a", none⟩, ⟨.draft202012, .obj [("new", .null)]⟩)] rfl
    (by intro p hp; rw [List.mem_singleton] at hp; subst hp; rfl)).1

theorem dedupAux_find? (u : Uri) : ∀ (l : List (Uri × Res)) (last : Uri × Res),
    (last :: dedupAux last l).find? (fun q => decide (q.1 = u)) =
    (last :: l).find? (fun q => decide (q.1 = u)) := by
  intro l
  induction l with
  | nil => intro last; rfl
  | cons y rest ih =>
    intro last
    unfold dedupAux
    split
    · rename_i heq
      rw [ih last]
      by_cases hl : last.1 = u
      · simp [List.find?, hl]
      · have hy : ¬ (y.1 = u) := fun h => hl (heq.symm ▸ h)
        simp [List.find?, hl, hy]
    · by_cases hl : last.1 = u
      · simp [List.find?, hl]
      · have h2 := ih y
        simp only [List.find?, decide_eq_false hl] at h2 ⊢
        simpa using h2

theorem dedupByUri_find? (u : Uri) (l : List (Uri × Res)) :
    (dedupByUri l).find? (fun q => decide (q.1 = u)) =
    l.find? (fun q => decide (q.1 = u)) := by
  cases l with
  | nil => rfl
  | cons x rest => exact dedupAux_find? u rest x

theorem insertInputs_documents (u : Uri) : ∀ (l : List (Uri × Res)) (st : BuildState),
    alookup (insertInputs l st).documents u =
      match alookup st.documents u with
      | some dv => some dv
      | none => (l.find? (fun q => decide (q.1 = u))).map (fun q => q.2.contents) := by
  intro l
  induction l with
  | nil =>
    intro st
    cases h : alookup st.documents u <;> simp [insertInputs, h]
  | cons q rest ih =>
    intro st
    obtain ⟨k, r⟩ := q
    unfold insertInputs
    cases hk : alookup st.documents k with
    | some dv =>
      simp only [hk]
      rw [ih st]
      by_cases hu : k = u
      · subst hu
        rw [hk]
      · cases h2 : alookup st.documents u <;> simp [List.find?, hu, h2]
    | none =>
      simp only [hk]
      rw [ih _]
      by_cases hu : k = u
      · subst hu
        rw [show alookup (ainsert k r.contents st.documents) k = some r.contents
          from alookup_ainsert_self k r.contents st.documents, hk]
        simp [List.find?]
      · rw [show alookup (ainsert k r.contents st.documents) u = alookup st.documents u
          from alookup_ainsert_ne r.contents st.documents (Ne.symm hu)]
        cases h2 : alookup st.documents u <;> simp [List.find?, hu, h2]

theorem insertInputs_resources (u : Uri) : ∀ (l : List (Uri × Res)) (st : BuildState),
    alookup (insertInputs l st).resources u =
      match alookup st.documents u with
      | some _ => alookup st.resources u
      | none =>
        match l.find? (fun q => decide (q.1 = u)) with
        | some q => some q.2
        | none => alookup st.resources u := by
  intro l
  induction l with
  | nil =>
    intro st
    cases h : alookup st.documents u <;> simp [insertInputs, h]
  | cons q rest ih =>
    intro st
    obtain ⟨k, r⟩ := q
    unfold insertInputs
    cases hk : alookup st.documents k with
    | some dv =>
      simp only [hk]
      rw [ih st]
      by_cases hu : k = u
      · subst hu
        rw [hk]
      · cases h2 : alookup st.documents u <;> simp [List.find?, hu, h2]
    | none =>
      simp only [hk]
      rw [ih _]
      by_cases hu : k = u
      · subst hu
        rw [show alookup (ainsert k r.contents st.documents) k = some r.contents
          from alookup_ainsert_self k r.contents st.documents, hk]
        rw [show alookup (ainsert k r st.resources) k = some r
          from alookup_ainsert_self k r st.resources]
        simp [List.find?]
      · rw [show alookup (ainsert k r.contents st.documents) u = alookup st.documents u
          from alookup_ainsert_ne r.contents st.documents (Ne.symm hu)]
        rw [show alookup (ainsert k r st.resources) u = alookup st.resources u
          from alookup_ainsert_ne r st.resources (Ne.symm hu)]
        cases h2 : alookup st.documents u <;> simp [List.find?, hu, h2]

/-- Preservation from the interned-input state to the build's final state. -/
theorem processResources_pres (fuel : Nat) (pairs : List (String × Res))
    (retr : Retriever) (dd : Draft) (specs : SpecTable) (st0 : BuildState)
    (parsed : List (Uri × Res)) {st : BuildState}
    (hn : normalizeInputs pairs = .ok parsed)
    (h : processResources fuel pairs retr dd specs st0 = some st) :
    Pres (insertInputs (dedupByUri parsed.reverse) st0) st := by
  unfold processResources at h
  simp only [hn] at h
  split at h
  · cases h
  · rename_i st2 hbl
    have hp := (buildLoop_inv retr dd fuel hbl).1
    split at h
    · rw [(Option.some.inj h).symm]; exact hp
    · split at h
      · rw [(Option.some.inj h).symm]
        exact pres_trans hp (mergeSpecs_inv retr specs st2).1
      · rw [(Option.some.inj h).symm]; exact hp

/-- Claim C2 (amended): in a fresh build whose inputs contain several pairs
under the same (trailing-hash-stripped, parsed) URI, earlier duplicates are
dropped before interning: the interned document and resource under that URI
are those of the last such pair, and the document the final registry stores
under that URI is still that last body.  The final resource entry is only
guaranteed at interning time: the id-alias path of the discovery loop may
later overwrite it (see the counterexample). -/
theorem claim2 (fuel : Nat) (pairs : List (String × Res)) (retr : Retriever)
    (dd : Draft) (specs : SpecTable) (parsed : List (Uri × Res))
    (st : BuildState) (u : Uri) (pr : Uri × Res)
    (hn : normalizeInputs pairs = .ok parsed)
    (hfind : parsed.reverse.find? (fun q => decide (q.1 = u)) = some pr)
    (hrun : processResources fuel pairs retr dd specs (initState [] [] []) = some st) :
    alookup st.documents u = some pr.2.contents ∧
    alookup (insertInputs (dedupByUri parsed.reverse)
      (initState [] [] [])).documents u = some pr.2.contents ∧
    alookup (insertInputs (dedupByUri parsed.reverse)
      (initState [] [] [])).resources u = some pr.2 := by
  have hdoc : alookup (insertInputs (dedupByUri parsed.reverse)
      (initState [] [] [])).documents u = some pr.2.contents := by
    rw [insertInputs_documents]
    rw [show alookup (initState [] [] [] : BuildState).documents u = none from rfl]
    rw [dedupByUri_find?, hfind]
    rfl
  have hres : alookup (insertInputs (dedupByUri parsed.reverse)
      (initState [] [] [])).resources u = some pr.2 := by
    rw [insertInputs_resources]
    rw [show alookup (initState [] [] [] : BuildState).documents u = none from rfl]
    rw [dedupByUri_find?, hfind]
  refine ⟨?_, hdoc, hres⟩
  have hpres := processResources_pres fuel pairs retr dd specs
    (initState [] [] []) parsed hn hrun
  obtain ⟨_, hd⟩ := hpres u (by rw [hres]; rfl)
  rw [hd, hdoc]

/-- Inputs with two pairs under the same URI and different bodies. -/
def dupInput : List (String × Res) :=
  [("x:dup", ⟨.draft202012, .obj [("properties", .obj [("foo", .obj [])])]⟩),
   ("x:dup", ⟨.draft202012, .obj [("properties", .obj [("bar", .obj [])])]⟩)]

/-- Final state of the duplicate-input build. -/
def dupFinal : BuildState :=
  (processResources 4 dupInput failRetriever defaultDraft emptySpecs
    (initState [] [] [])).getD (initState [] [] [])

/-- Witness for C2: in the concrete duplicate-input build the registry's
document under the shared URI is the second body. -/
theorem claim2_witness :
    alookup dupFinal.documents ⟨"x", "dup", none⟩ =
      some (.obj [("properties", .obj [("bar", .obj [])])]) :=
  (claim2 4 dupInput failRetriever defaultDraft emptySpecs
    [(⟨"x", "dup", none⟩, ⟨.draft202012, .obj [("properties", .obj [("foo", .obj [])])]⟩),
     (⟨"x", "dup", none⟩, ⟨.draft202012, .obj [("properties", .obj [("bar", .obj [])])]⟩)]
    dupFinal ⟨"x", "dup", none⟩
    (⟨"x", "dup", none⟩, ⟨.draft202012, .obj [("properties", .obj [("bar", .obj [])])]⟩)
    rfl rfl rfl).1

/-- Inputs with two pairs under the same URI followed by a resource whose id
aliases that URI. -/
def dupAliasInput : List (String × Res) :=
  [("x:a", ⟨.draft202012, .obj [("title", .str "A")]⟩),
   ("x:a", ⟨.draft202012, .obj [("title", .str "B")]⟩),
   ("x:b", ⟨.draft202012, .obj [("$id", .str "x:a")]⟩)]

/-- Counterexample for C2: the fresh build over dupAliasInput succeeds without
error, yet the resource the final registry stores under the duplicated URI is
the later aliasing resource, not the body of the last duplicate pair, so the
resource half of the claim fails even though the document half holds. -/
theorem claim2_cex :
    (processResources 20 dupAliasInput failRetriever defaultDraft emptySpecs
        (initState [] [] [])).map
      (fun st => (st.err,
        (alookup st.resources ⟨"x", "a", none⟩).map (fun q => q.contents),
        alookup st.documents ⟨"x", "a", none⟩))
      = some (none, some (.obj [("$id", .str "x:a")]),
          some (.obj [("title", .str "B")])) ∧
    Json.obj [("$id", .str "x:a")] ≠ Json.obj [("title", .str "B")] := by
  constructor
  · rfl
  · intro hcontra
    injection hcontra with h1
    injection h1 with h2 h3
    injection h2 with h4 h5
    exact absurd h4 (by decide)

/-- Restatement of the pointer walk following the specification text, used to
compare with the source's fold: descend segment by segment, unescaping each,
through objects by member key and through arrays by parsed index; a missing
member, a rejected index, or a scalar in the path is a miss. -/
def walkSegments : Json → List String → Option Json
  | doc, [] => some doc
  | doc, s :: rest =>
    match doc with
    | .obj m =>
      match (m.find? (fun p => p.1 == unescapeSegment s)).map (fun p => p.2) with
      | some child => walkSegments child rest
      | none => none
    | .arr l =>
      match (parse_index (unescapeSegment s)).bind (fun i => l[i]?) with
      | some child => walkSegments child rest
      | none => none
    | _ => none

theorem foldlM_pointerStep : ∀ (segs : List String) (doc : Json),
    (segs.map unescapeSegment).foldlM pointerStep doc = walkSegments doc segs := by
  intro segs
  induction segs with
  | nil => intro doc; rfl
  | cons s rest ih =>
    intro doc
    rw [List.map_cons, List.foldlM_cons]
    cases doc with
    | obj m =>
      cases hfind : (m.find? (fun p => p.1 == unescapeSegment s)).map (fun p => p.2) with
      | some child => simp [pointerStep, walkSegments, hfind, ih]
      | none => simp [pointerStep, walkSegments, hfind]
    | arr l =>
      cases hfind : (parse_index (unescapeSegment s)).bind (fun i => l[i]?) with
      | some child => simp [pointerStep, walkSegments, hfind, ih]
      | none => simp [pointerStep, walkSegments, hfind]
    | null => simp [pointerStep, walkSegments]
    | bool b => simp [pointerStep, walkSegments]
    | num n => simp [pointerStep, walkSegments]
    | str s2 => simp [pointerStep, walkSegments]

/-- Claim C8: the JSON Pointer walk returns the document on the empty
fragment, returns nothing on a nonempty fragment not starting with a slash,
and otherwise descends through the slash-split, unescaped segments exactly as
the specification words it; array index segments with a leading plus, or a
leading zero on a longer segment, are rejected, while the bare zero segment is
accepted. -/
theorem claim8 (doc : Json) (p : String) :
    (p = "" → pointer doc p = some doc) ∧
    (p ≠ "" → strStartsWith p "/" = false → pointer doc p = none) ∧
    (strStartsWith p "/" = true →
      pointer doc p = walkSegments doc
        (((splitOnChar '/' p.toList).map List.asString).drop 1)) ∧
    (∀ s : String, strStartsWith s "+" = true → parse_index s = none) ∧
    (∀ s : String, strStartsWith s "0" = true → s.length ≠ 1 →
      parse_index s = none) ∧
    parse_index "0" = some 0 := by
  refine ⟨?_, ?_, ?_, ?_, ?_, ?_⟩
  · intro h
    subst h
    rfl
  · intro h1 h2
    unfold pointer
    rw [if_neg h1, if_pos (by simp [h2])]
  · intro h3
    have hne : p ≠ "" := by
      intro he
      subst he
      exact absurd h3 (by decide)
    unfold pointer
    rw [if_neg hne, if_neg (by simp [h3])]
    exact foldlM_pointerStep _ doc
  · intro s hs
    unfold parse_index
    rw [if_pos (by simp [hs])]
  · intro s hs hlen
    unfold parse_index
    rw [if_pos (by simp [hs, hlen])]
  · rfl

/-- Witness for C8: the slash-path case applied to a concrete document with an
array index and an escaped tilde segment. -/
theorem claim8_witness :
    pointer (.obj [("a", .arr [.num 1, .obj [("b~x", .str "hit")]])]) "/a/1/b~0x"
      = some (.str "hit") := by
  have h := (claim8 (.obj [("a", .arr [.num 1, .obj [("b~x", .str "hit")]])])
    "/a/1/b~0x").2.2.1 (by decide)
  rw [h]
  rfl

end Referencing

